import Mathlib

/-!
Verification of the geogen overlay pipeline (src/tools/geogen/cli.py and
cli_enhance_river.py) against its natural-language specification.

Modelling conventions (shallow embedding):
* Python `int` is `Int`/`Nat`; `int.to_bytes(n, "little", signed=False)` raises
  `OverflowError` when the value does not fit, so the byte helpers return
  `Option (List Nat)`.
* Python `float` is modelled as `Rat`.  Every float literal appearing in the
  code is modelled by the decimal rational it denotes; for the comparisons the
  claims depend on, the windowed water fractions are quotients of integers
  bounded by 81, so the double rounding of `float(water)/float(total)` and of
  the literal `0.45` never flips a comparison relative to exact rational
  arithmetic (the minimal nonzero gap between such quotients and 9/20 far
  exceeds double rounding error, and equal values compare equal either way).
* A Python column-major grid `List[List[int]]` is `List (List Int)`.
* Python sets of cells are lists with set-semantics insertion
  (`List.insert`); membership is what matters to the claims.
* `random.random()` / `random.choice` draws are threaded explicitly as inputs
  (the spec itself notes the source must be seedable), so theorems quantify
  over all draw sequences.
* `int(x)` on a float truncates toward zero (`pyint`); `round` is Python 3
  banker's rounding, half to even (`pyRound`); `//` on ints is floor division
  (`Int.fdiv`).
-/

namespace Geogen

/-- Integer range `[a, b]` inclusive, i.e. Python `range(a, b + 1)`. -/
def rangeZ (a b : Int) : List Int :=
  (List.range (b - a + 1).toNat).map (fun k : Nat => a + (k : Int))

/-- Python `int()` applied to a float: truncation toward zero. -/
def pyint (q : Rat) : Int :=
  if q < 0 then Rat.ceil q else Rat.floor q

/-- Python 3 `round()` on a float: round half to even. -/
def pyRound (q : Rat) : Int :=
  let f := Rat.floor q
  let r := q - (f : Rat)
  if r < 1/2 then f
  else if r > 1/2 then f + 1
  else if f % 2 = 0 then f else f + 1

/-- Python `min` over a nonempty list (callers guarantee nonemptiness). -/
def listMin (l : List Rat) : Rat := l.foldl min (l.headD 0)

/-- Python `max` over a nonempty list (callers guarantee nonemptiness). -/
def listMax (l : List Rat) : Rat := l.foldl max (l.headD 0)

/-- The tile grid: column-major list of columns, `grid[i][j]`. -/
abbrev Grid := List (List Int)

/-- `h = len(grid[0]) if w else 0`. -/
def grid_h (g : Grid) : Nat :=
  match g with
  | [] => 0
  | c :: _ => c.length

/-- Read `grid[i][j]` (callers stay in bounds; out of bounds defaults to 0). -/
def cellGet (g : Grid) (i j : Int) : Int :=
  (g.getD i.toNat []).getD j.toNat 0

/-- Write `grid[i][j] = v`. -/
def cellSet (g : Grid) (i j : Int) (v : Int) : Grid :=
  g.set i.toNat ((g.getD i.toNat []).set j.toNat v)

/-- The grid is rectangular: every column has length `grid_h g`. -/
def Rect (g : Grid) : Prop := ∀ c ∈ g, c.length = grid_h g

-- Template catalogue constants from cli.py.
def CLEAR_TEMPLATE_ID : Int := 255
def WATER_TEMPLATE_ID : Int := 1
def ROAD_TEMPLATE_ID : Int := 227
def BEACH_TEMPLATE_ID : Int := 6
def RIVER_TEMPLATE_VERT_CENTER : Int := 117
def RIVER_TEMPLATE_HORIZ_TOP : Int := 121
def RIVER_TEMPLATE_HORIZ_TOP_ALT : Int := 122

def RIVER_TEMPLATE_IDS : List Int :=
  [112, 113, 114, 115, 116, 117, 118, 119, 120, 121, 122, 123, 124, 229, 230]

def ROAD_BASE_TEMPLATE_IDS : List Int := [227, 228]
def ROAD_MULTI_TEMPLATE_IDS : List Int := [206, 207]
def ROAD_ALL_TEMPLATE_IDS : List Int := [227, 228, 206, 207]

/-- `RIVER_STAMP_SKIP_WATER_FRAC = 0.45`. -/
def RIVER_STAMP_SKIP_WATER_FRAC : Rat := 9/20

/-- `TEMPLATE_SIZES` dictionary: template id to footprint `(width, height)`. -/
def TEMPLATE_SIZES (tid : Int) : Option (Nat × Nat) :=
  if tid = RIVER_TEMPLATE_VERT_CENTER then some (3, 2)
  else if tid = RIVER_TEMPLATE_HORIZ_TOP then some (2, 2)
  else if tid = RIVER_TEMPLATE_HORIZ_TOP_ALT then some (2, 2)
  else if tid = 206 then some (3, 3)
  else if tid = 207 then some (3, 3)
  else none

/-! ## MapEncoder (`_le_u16`, `_le_u32`, `build_map_bin`,
`build_map_bin_from_grid`) -/

/-- Sequence an option-producing loop body over a list (the Python `for`
loops in the encoders, where any iteration may raise). -/
def seqOpt {α β : Type} : List α → (α → Option β) → Option (List β)
  | [], _ => some []
  | x :: xs, f => do
    let b ← f x
    let bs ← seqOpt xs f
    pure (b :: bs)

/-- `v.to_bytes(2, "little", signed=False)`; raises unless `v < 2^16`. -/
def le_u16 (v : Nat) : Option (List Nat) :=
  if v < 65536 then some [v % 256, v / 256 % 256] else none

/-- `v.to_bytes(4, "little", signed=False)`; raises unless `v < 2^32`. -/
def le_u32 (v : Nat) : Option (List Nat) :=
  if v < 4294967296 then
    some [v % 256, v / 256 % 256, v / 65536 % 256, v / 16777216 % 256]
  else none

/-- `build_map_bin` from cli.py: fixed header then constant tile payload. -/
def build_map_bin (width height : Nat) (include_heights : Bool)
    (default_template_id default_variant : Nat) : Option (List Nat) := do
  let header_len : Nat := 17
  let tiles_offset := header_len
  let heights_offset := if include_heights then 3 * width * height + header_len else 0
  let resources_offset := (if include_heights then 4 else 3) * width * height + header_len
  let bw ← le_u16 width
  let bh ← le_u16 height
  let bto ← le_u32 tiles_offset
  let bho ← le_u32 heights_offset
  let bro ← le_u32 resources_offset
  -- for i in range(w): for j in range(h): u16(default_template_id), byte(variant & 0xFF)
  let cols ← seqOpt (List.range width) (fun _ =>
    seqOpt (List.range height) (fun _ => do
      let c ← le_u16 default_template_id
      pure (c ++ [default_variant % 256])))
  let tiles := (cols.map (fun col => col.flatten)).flatten
  let heights := if include_heights then List.replicate (width * height) 0 else []
  let resources := (List.range (width * height)).flatMap (fun _ => [0, 0])
  return [2] ++ bw ++ bh ++ bto ++ bho ++ bro ++ tiles ++ heights ++ resources

/-- `build_map_bin_from_grid` from cli.py: per-cell payload; empty grids yield
`b""`; inconsistent column heights raise `ValueError` (modelled as `none`). -/
def build_map_bin_from_grid (tiles_type tiles_variant : Grid)
    (include_heights : Bool) : Option (List Nat) :=
  if tiles_type = [] ∨ tiles_type.headD [] = [] then some []
  else do
    let w := tiles_type.length
    let h := (tiles_type.headD []).length
    if !(tiles_type.all (fun col => col.length = h)) then none
    else if !(tiles_variant.all (fun col => col.length = h)) then none
    else do
      let bw ← le_u16 w
      let bh ← le_u16 h
      let bto ← le_u32 17
      let bho ← le_u32 (if include_heights then 3 * w * h + 17 else 0)
      let bro ← le_u32 ((if include_heights then 4 else 3) * w * h + 17)
      let cols ← seqOpt (List.range w) (fun i =>
        seqOpt (List.range h) (fun j => do
          let c ← le_u16 (cellGet tiles_type i j).toNat
          pure (c ++ [(cellGet tiles_variant i j).natAbs % 256])))
      let tiles := (cols.map (fun col => col.flatten)).flatten
      let heights := if include_heights then List.replicate (w * h) 0 else []
      let resources := (List.range (w * h)).flatMap (fun _ => [0, 0])
      return [2] ++ bw ++ bh ++ bto ++ bho ++ bro ++ tiles ++ heights ++ resources

/-- `build_map_bin_from_grid` from cli_enhance_river.py: identical but with no
column-shape validation. -/
def build_map_bin_from_grid_enhance (tiles_type tiles_variant : Grid)
    (include_heights : Bool) : Option (List Nat) :=
  if tiles_type = [] ∨ tiles_type.headD [] = [] then some []
  else do
    let w := tiles_type.length
    let h := (tiles_type.headD []).length
    let bw ← le_u16 w
    let bh ← le_u16 h
    let bto ← le_u32 17
    let bho ← le_u32 (if include_heights then 3 * w * h + 17 else 0)
    let bro ← le_u32 ((if include_heights then 4 else 3) * w * h + 17)
    let cols ← seqOpt (List.range w) (fun i =>
      seqOpt (List.range h) (fun j => do
        let c ← le_u16 (cellGet tiles_type i j).toNat
        pure (c ++ [(cellGet tiles_variant i j).natAbs % 256])))
    let tiles := (cols.map (fun col => col.flatten)).flatten
    let heights := if include_heights then List.replicate (w * h) 0 else []
    let resources := (List.range (w * h)).flatMap (fun _ => [0, 0])
    return [2] ++ bw ++ bh ++ bto ++ bho ++ bro ++ tiles ++ heights ++ resources

/-! ## VectorRasterizer (`_point_in_poly`, `_draw_disc`, `_fill_polygon`) -/

/-- `_point_in_poly`: even-odd rule test.  The float literal `1e-9` guarding
the division is modelled by the rational `1/10^9`. -/
def point_in_poly (px py : Rat) (poly : List (Rat × Rat)) : Bool :=
  let n := poly.length
  if n < 3 then false
  else
    let lst := poly.getLastD (0, 0)
    (poly.foldl (fun (st : Bool × Rat × Rat) pt =>
      let inside := st.1
      let xj := st.2.1
      let yj := st.2.2
      let xi := pt.1
      let yi := pt.2
      let intersect := (decide (yi > py) != decide (yj > py))
        && decide (px < (xj - xi) * (py - yi) / (yj - yi + 1/1000000000) + xi)
      (if intersect then !inside else inside, xi, yi)) (false, lst.1, lst.2)).1

/-- The cell list visited by `for i in range(xmin, xmax+1): for j in
range(ymin, ymax+1)`, in loop order. -/
def windowPairs (xmin xmax ymin ymax : Int) : List (Int × Int) :=
  (rangeZ xmin xmax).flatMap (fun i => (rangeZ ymin ymax).map (fun j => (i, j)))

/-- Loop body shared by `_draw_disc` and `_fill_polygon`: when the visit
condition holds and the stored value differs, write `value` and count. -/
def scanStep (v : Int) (cond : Int × Int → Bool) (st : Grid × Nat)
    (p : Int × Int) : Grid × Nat :=
  if cond p then
    if cellGet st.1 p.1 p.2 ≠ v then (cellSet st.1 p.1 p.2 v, st.2 + 1) else st
  else st

/-- The write loop over a list of visited cells. -/
def scanFold (v : Int) (cond : Int × Int → Bool) :
    List (Int × Int) → Grid × Nat → Grid × Nat
  | [], st => st
  | p :: ps, st => scanFold v cond ps (scanStep v cond st p)

/-- `_draw_disc`: fill the disc of radius `radius_cells` around `(cx, cy)`,
returning the updated grid and the number of cells whose value changed. -/
def draw_disc (grid : Grid) (cx cy radius_cells : Rat) (value : Int) :
    Grid × Nat :=
  let w : Int := grid.length
  let h : Int := grid_h grid
  let r := max 0 radius_cells
  let r2 := r * r
  let xmin := max 0 (pyint (cx - r) - 1)
  let xmax := min (w - 1) (pyint (cx + r) + 1)
  let ymin := max 0 (pyint (cy - r) - 1)
  let ymax := min (h - 1) (pyint (cy + r) + 1)
  let cond : Int × Int → Bool := fun p =>
    let dx := (p.1 : Rat) + 1/2 - cx
    let dy := (p.2 : Rat) + 1/2 - cy
    decide (dx * dx + dy * dy ≤ r2) &&
      (decide (0 ≤ p.1) && decide (p.1 < w) && decide (0 ≤ p.2) && decide (p.2 < h))
  scanFold value cond (windowPairs xmin xmax ymin ymax) (grid, 0)

/-- `_fill_polygon`: even-odd fill over the polygon's bounding box (expanded
by one cell and clipped to the grid), evaluated at cell centers. -/
def fill_polygon (grid : Grid) (poly : List (Rat × Rat)) (value : Int) :
    Grid × Nat :=
  if poly = [] then (grid, 0)
  else
    let w : Int := grid.length
    let h : Int := grid_h grid
    let xs := poly.map Prod.fst
    let ys := poly.map Prod.snd
    let xmin := max 0 (pyint (listMin xs) - 1)
    let xmax := min (w - 1) (pyint (listMax xs) + 1)
    let ymin := max 0 (pyint (listMin ys) - 1)
    let ymax := min (h - 1) (pyint (listMax ys) + 1)
    let cond : Int × Int → Bool := fun p =>
      point_in_poly ((p.1 : Rat) + 1/2) ((p.2 : Rat) + 1/2) poly
    scanFold value cond (windowPairs xmin xmax ymin ymax) (grid, 0)

/-- All in-bounds cell positions of a grid, as integer pairs. -/
def allCells (g : Grid) : List (Int × Int) :=
  windowPairs 0 ((g.length : Int) - 1) 0 ((grid_h g : Int) - 1)

/-- Number of cells whose stored value differs between `g` and `g'` (over the
positions of `g`). -/
def changedCount (g g' : Grid) : Nat :=
  ((allCells g).filter
    (fun p => decide (cellGet g' p.1 p.2 ≠ cellGet g p.1 p.2))).length

/-- A cell position addressable in grid `g`. -/
def Valid (g : Grid) (p : Int × Int) : Prop :=
  0 ≤ p.1 ∧ 0 ≤ p.2 ∧ p.1.toNat < g.length ∧
    p.2.toNat < (g.getD p.1.toNat []).length

/-! ## PlacementEngine — buildings (`_can_place`, `_dims_with_fallbacks`,
`_place_from_bbox` and the candidate loop of `overlay_osm_to_tiles`) -/

/-- `random.choice(l)`: the drawn index is threaded in as `pick`. -/
def pyChoice {α : Type} (l : List α) (pick : Nat) (d : α) : α :=
  l.getD (pick % l.length) d

/-- A placed building actor record (`BldN: <actor> / Location: ci,cj`),
together with the footprint it occupies. -/
structure Placement where
  actor : String
  ci : Int
  cj : Int
  wf : Nat
  hf : Nat

/-- State threaded through the building pass: the shared `occupied_cells` set
and the emitted actors (`placed_b` is `placed.length`). -/
structure BState where
  occupied : List (Int × Int)
  placed : List Placement

/-- One building candidate (its ring's cell coordinates) together with the
random draws it may consume: the `_rand.random()` value for the density skip
and the `_rand.choice` index for the actor name. -/
structure BCand where
  xs : List Rat
  ys : List Rat
  densityDraw : Rat
  pick : Nat

/-- Static context of the building pass (closed over by `_place_from_bbox`). -/
structure BCtx where
  tiles_type : Grid
  width : Int
  height : Int
  building_density : Rat
  max_buildings : Int
  building_search_radius : Int
  building_placement_mode : String

/-- The cells covered by a `wf × hf` footprint anchored at `(ci, cj)`
(`for dx in range(wf): for dy in range(hf)`). -/
def footprintCells (ci cj : Int) (wf hf : Nat) : List (Int × Int) :=
  (List.range wf).flatMap (fun (dx : Nat) =>
    (List.range hf).map (fun (dy : Nat) => (ci + (dx : Int), cj + (dy : Int))))

/-- `_can_place`: footprint in bounds, terrain not water/river/beach, and no
cell already occupied. -/
def can_place (ctx : BCtx) (occupied : List (Int × Int)) (i0 j0 : Int)
    (w_ h_ : Nat) : Bool :=
  if i0 < 0 || j0 < 0 || decide (ctx.width ≤ i0 + (w_ : Int) - 1) ||
      decide (ctx.height ≤ j0 + (h_ : Int) - 1) then false
  else (List.range w_).all (fun dx => (List.range h_).all (fun dy =>
    let ii := i0 + (dx : Int)
    let jj := j0 + (dy : Int)
    !(cellGet ctx.tiles_type ii jj == WATER_TEMPLATE_ID) &&
    !(RIVER_TEMPLATE_IDS.contains (cellGet ctx.tiles_type ii jj)) &&
    !(cellGet ctx.tiles_type ii jj == BEACH_TEMPLATE_ID) &&
    !(occupied.contains (ii, jj))))

/-- `by_dims`: preferred actor lists keyed by footprint. -/
def by_dims (d : Nat × Nat) : List String :=
  if d = (1, 1) then ["LHUS"]
  else if d = (1, 2) then ["RUSHOUSE"]
  else if d = (2, 1) then ["V22", "V26", "V30", "V31", "V32", "V33"]
  else if d = (2, 2) then ["V20", "V21", "V24", "V25"]
  else []

/-- `_dims_with_fallbacks`: the footprint degradation sequence. -/
def dims_with_fallbacks (w_fit h_fit : Nat) (mode : String) : List (Nat × Nat) :=
  let seq := [(w_fit, h_fit)]
  if mode = "fallback" || mode = "aggressive" then
    let opts :=
      if (w_fit, h_fit) = (2, 2) then [(2, 1), (1, 2), (1, 1)]
      else if (w_fit, h_fit) = (2, 1) || (w_fit, h_fit) = (1, 2) then [(1, 1)]
      else []
    opts.foldl (fun s d => if s.contains d then s else s ++ [d]) seq
  else seq

/-- The scan order of the search window: `for dj in range(-r, r+1): for di in
range(-r, r+1)`, visiting `(ai+di, aj+dj)`. -/
def searchPositions (r ai aj : Int) : List (Int × Int) :=
  (rangeZ (-r) r).flatMap (fun dj =>
    (rangeZ (-r) r).map (fun di => (ai + di, aj + dj)))

/-- The footprint/position search of `_place_from_bbox`: for each footprint in
the fallback sequence (skipping ones with no actor list), the first window
position where `_can_place` holds wins; the loops break on first success. -/
def findPlacement (ctx : BCtx) (occupied : List (Int × Int)) (r ai aj : Int) :
    List (Nat × Nat) → Option (Nat × Nat × Int × Int)
  | [] => none
  | d :: rest =>
    if by_dims d = [] then findPlacement ctx occupied r ai aj rest
    else
      match (searchPositions r ai aj).find?
          (fun p => can_place ctx occupied p.1 p.2 d.1 d.2) with
      | some p => some (d.1, d.2, p.1, p.2)
      | none => findPlacement ctx occupied r ai aj rest

/-- The search-and-commit tail of `_place_from_bbox`: on the first valid
`(footprint, position)` pair, mark every footprint cell occupied and append
the actor; otherwise leave the state unchanged. -/
def commit_search (ctx : BCtx) (st : BState) (pick : Nat) (r ai aj : Int)
    (dims_list : List (Nat × Nat)) : BState :=
  match findPlacement ctx st.occupied r ai aj dims_list with
  | none => st
  | some (wf, hf, ci, cj) =>
    { occupied := (footprintCells ci cj wf hf).foldl
        (fun occ c => occ.insert c) st.occupied,
      placed := st.placed ++ [⟨pyChoice (by_dims (wf, hf)) pick "", ci, cj, wf, hf⟩] }

/-- `_place_from_bbox` on one candidate: cap check, density skip, bbox fit,
anchor, search, then commit (mark every footprint cell occupied and append the
actor). -/
def place_from_bbox (ctx : BCtx) (st : BState) (cand : BCand) : BState :=
  if ctx.max_buildings ≤ (st.placed.length : Int) then st
  else if cand.densityDraw > max 0 (min 1 ctx.building_density) then st
  else if cand.xs = [] ∨ cand.ys = [] then st
  else
    let min_x := listMin cand.xs
    let max_x := listMax cand.xs
    let min_y := listMin cand.ys
    let max_y := listMax cand.ys
    let bbox_w := max 1 (pyRound (max_x - min_x))
    let bbox_h := max 1 (pyRound (max_y - min_y))
    let w_fit := (max 1 (min 2 bbox_w)).toNat
    let h_fit := (max 1 (min 2 bbox_h)).toNat
    let ai := max 0 (min (ctx.width - (w_fit : Int))
      (pyRound ((min_x + max_x) / 2 - (w_fit : Rat) / 2)))
    let aj := max 0 (min (ctx.height - (h_fit : Int))
      (pyRound ((min_y + max_y) / 2 - (h_fit : Rat) / 2)))
    -- str(building_placement_mode or "accurate"): empty string is falsy
    let mode := if ctx.building_placement_mode = "" then "accurate"
      else ctx.building_placement_mode
    let base_r := max 0 ctx.building_search_radius
    let local_r := base_r * (if mode = "aggressive" then 2 else 1)
    let dims_list := dims_with_fallbacks w_fit h_fit mode
    commit_search ctx st cand.pick local_r ai aj dims_list

/-- The building pass: `occupied_cells = set()`, `placed_b = 0`, then
`_place_from_bbox` per candidate in feature order (the pass-level cap break is
subsumed by the entry check of `_place_from_bbox`). -/
def buildings_stage (ctx : BCtx) (cands : List BCand) : BState :=
  cands.foldl (place_from_bbox ctx) ⟨[], []⟩

/-- The cells covered by a placed actor. -/
def placementCells (b : Placement) : List (Int × Int) :=
  footprintCells b.ci b.cj b.wf b.hf

/-- Invariant of the building pass: every placed footprint is recorded in the
occupied set, and placed footprints are pairwise disjoint. -/
def BInv (st : BState) : Prop :=
  (∀ b ∈ st.placed, ∀ c ∈ placementCells b, c ∈ st.occupied) ∧
  st.placed.Pairwise (fun b1 b2 => ∀ c ∈ placementCells b1, c ∉ placementCells b2)

/-! ## PlacementEngine — vegetation (the `include_vegetation` block of
`overlay_osm_to_tiles`).  Stat counters (`skipped_*`) are omitted: they do not
feed back into control flow. -/

def tree_types : List String :=
  ["t01", "t02", "t03", "t05", "t06", "t07", "t08", "t10", "t11", "t12", "t13"]

/-- Static context of the vegetation pass.  `forest_cells` carries the
iteration order of the Python set. -/
structure VCtx where
  tiles_type : Grid
  width : Int
  height : Int
  forest_cells : List (Int × Int)
  builtup_cells : List (Int × Int)
  road_cells : List (Int × Int)
  occupied_cells : List (Int × Int)
  max_veg_actors : Int
  veg_density : Rat
  veg_min_spacing : Int
  veg_patch_size : Int
  veg_patch_boost : Rat
  suppress_veg_near_roads : Int
  suppress_veg_near_buildings : Int

/-- `ps = max(1, int(veg_patch_size))`. -/
def veg_ps (ctx : VCtx) : Int := max 1 ctx.veg_patch_size

/-- `pi, pj = i // ps, j // ps` (Python floor division). -/
def patchOf (ps : Int) (c : Int × Int) : Int × Int :=
  (Int.fdiv c.1 ps, Int.fdiv c.2 ps)

/-- One `patch_counts[key] += 1` update on an insertion-ordered assoc list
(Python dicts preserve insertion order, which `densities` iteration uses). -/
def alistIncr (l : List ((Int × Int) × Nat)) (k : Int × Int) :
    List ((Int × Int) × Nat) :=
  if l.any (fun e => e.1 == k) then
    l.map (fun e => if e.1 == k then (e.1, e.2 + 1) else e)
  else l ++ [(k, 1)]

/-- `patch_counts`: forest cells per patch, in first-seen order. -/
def patch_counts (ctx : VCtx) : List ((Int × Int) × Nat) :=
  ctx.forest_cells.foldl (fun m c => alistIncr m (patchOf (veg_ps ctx) c)) []

/-- `patch_totals.get(key, ps*ps)`: edge-truncated patch sizes inside the
grid's patch range, the dict-get default outside it. -/
def patch_total (ctx : VCtx) (k : Int × Int) : Int :=
  let ps := veg_ps ctx
  let max_pi := Int.fdiv (ctx.width + ps - 1) ps
  let max_pj := Int.fdiv (ctx.height + ps - 1) ps
  if 0 ≤ k.1 ∧ k.1 < max_pi ∧ 0 ≤ k.2 ∧ k.2 < max_pj then
    max 1 (min ps (ctx.width - k.1 * ps) * min ps (ctx.height - k.2 * ps))
  else ps * ps

/-- Insert into an ascending-sorted list (used to model `list.sort()`;
Python's sort is stable, which is invisible on a list of plain values). -/
def insertSorted (a : Rat) : List Rat → List Rat
  | [] => [a]
  | b :: bs => if a ≤ b then a :: b :: bs else b :: insertSorted a bs

/-- `densities.sort()`: ascending insertion sort. -/
def pySort (l : List Rat) : List Rat := l.foldr insertSorted []

/-- The sorted per-patch density list and its median
(`densities[len(densities)//2]`, `0.0` when empty). -/
def veg_median (ctx : VCtx) : Rat :=
  let densities := pySort ((patch_counts ctx).map
    (fun e => (e.2 : Rat) / (patch_total ctx e.1 : Rat)))
  if densities = [] then 0 else densities.getD (densities.length / 2) 0

/-- `high_patches`: patches whose density is at least the median. -/
def high_patches (ctx : VCtx) : List (Int × Int) :=
  ((patch_counts ctx).filter
    (fun e => veg_median ctx ≤ (e.2 : Rat) / (patch_total ctx e.1 : Rat))).map
    (fun e => e.1)

/-- State of the vegetation loop: spacing set, placed trees, and the two
pending random streams (`random.random()` values and `random.choice` picks). -/
structure VState where
  veg_occupied : List (Int × Int)
  trees : List (String × Int × Int)
  rngQ : List Rat
  rngPick : List Nat

/-- `any cell of the (2r+1)² Chebyshev window around (i, j) is in s`
(`for di in range(-r, r+1): for dj in range(-r, r+1)`). -/
def windowAny (r i j : Int) (s : List (Int × Int)) : Bool :=
  (rangeZ (-r) r).any (fun di =>
    (rangeZ (-r) r).any (fun dj => s.contains (i + di, j + dj)))

/-- The local placement probability: `prob = base_prob * (boost if the cell's
patch is high-density else 1)`, clamped to at most 1. -/
def veg_prob (ctx : VCtx) (pkey : Int × Int) : Rat :=
  let prob0 := (max 0 (min 1 ctx.veg_density)) *
    (if (high_patches ctx).contains pkey then ctx.veg_patch_boost else 1)
  if prob0 > 1 then 1 else prob0

/-- The per-forest-cell body of the vegetation loop (cap already checked). -/
def veg_step (ctx : VCtx) (st : VState) (c : Int × Int) : VState :=
  let i := c.1
  let j := c.2
  if cellGet ctx.tiles_type i j = WATER_TEMPLATE_ID then st
  else if RIVER_TEMPLATE_IDS.contains (cellGet ctx.tiles_type i j) ∨
      cellGet ctx.tiles_type i j = BEACH_TEMPLATE_ID ∨
      ROAD_ALL_TEMPLATE_IDS.contains (cellGet ctx.tiles_type i j) then st
  else if ctx.builtup_cells.contains (i, j) then st
  else
    let pkey := patchOf (veg_ps ctx) (i, j)
    let q := st.rngQ.headD 0
    let st1 : VState := ⟨st.veg_occupied, st.trees, st.rngQ.tail, st.rngPick⟩
    if q > veg_prob ctx pkey then st1
    else
      let road_r := max 0 ctx.suppress_veg_near_roads
      if 0 < road_r ∧ windowAny road_r i j ctx.road_cells = true then st1
      else
        let bld_r := max 0 ctx.suppress_veg_near_buildings
        if 0 < bld_r ∧ windowAny bld_r i j ctx.occupied_cells = true then st1
        else
          let spacing := max 0 ctx.veg_min_spacing
          if 0 < spacing ∧ windowAny spacing i j st.veg_occupied = true then st1
          else
            let pick := st1.rngPick.headD 0
            ⟨st1.veg_occupied.insert (i, j),
             st1.trees ++ [(pyChoice tree_types pick "", i, j)],
             st1.rngQ, st1.rngPick.tail⟩

/-- The vegetation loop: `break` once the cap is reached, else run the body. -/
def veg_loop (ctx : VCtx) : List (Int × Int) → VState → VState
  | [], st => st
  | c :: rest, st =>
    if ctx.max_veg_actors ≤ (st.trees.length : Int) then st
    else veg_loop ctx rest (veg_step ctx st c)

/-- The vegetation pass over the forest cells, starting from no trees. -/
def veg_stage (ctx : VCtx) (rngQ : List Rat) (rngPick : List Nat) : VState :=
  veg_loop ctx ctx.forest_cells ⟨[], [], rngQ, rngPick⟩

/-- Chebyshev distance `max(|dx|, |dy|)`. -/
def cheb (a b : Int × Int) : Nat :=
  max (a.1 - b.1).natAbs (a.2 - b.2).natAbs

/-- Invariant of the vegetation loop: every tree's cell is in the spacing set
and trees are pairwise at Chebyshev distance at least `veg_min_spacing`. -/
def VInv (vms : Int) (st : VState) : Prop :=
  (∀ t ∈ st.trees, (t.2.1, t.2.2) ∈ st.veg_occupied) ∧
  st.trees.Pairwise (fun t1 t2 => vms ≤ (cheb (t1.2.1, t1.2.2) (t2.2.1, t2.2.2) : Int))

/-- The concrete vegetation context of C3's example: an 8×8 all-clear grid,
forest cells {(0,0), (1,1), (5,5)} in that enumeration order, density 1.0,
minimum spacing 2, patch size 4, boost 1, no road/building suppression. -/
def c3ctx : VCtx :=
  ⟨List.replicate 8 (List.replicate 8 255), 8, 8,
   [(0, 0), (1, 1), (5, 5)], [], [], [], 10, 1, 2, 4, 1, 0, 0⟩

/-! ## TemplateStamper and the river-smoothing pass -/

/-- `_stamp_template`: write a multi-cell template at anchor `(i0, j0)`,
clipping at the grid bounds; returns the grids and the cells written. -/
def stamp_template (tiles_type tiles_variant : Grid) (i0 j0 : Int)
    (template_id : Int) : Grid × Grid × Nat :=
  match TEMPLATE_SIZES template_id with
  | none => (tiles_type, tiles_variant, 0)
  | some (tw, th) =>
    let w : Int := tiles_type.length
    let h : Int := grid_h tiles_type
    -- for dy in range(th): for dx in range(tw)
    ((List.range th).flatMap (fun (dy : Nat) =>
      (List.range tw).map (fun (dx : Nat) => (dx, dy)))).foldl
      (fun st p =>
        let i := i0 + (p.1 : Int)
        let j := j0 + (p.2 : Int)
        if 0 ≤ i ∧ i < w ∧ 0 ≤ j ∧ j < h then
          (cellSet st.1 i j template_id,
           cellSet st.2.1 i j ((p.2 * tw + p.1 : Nat) : Int),
           st.2.2 + 1)
        else st)
      (tiles_type, tiles_variant, 0)

/-- `_local_water_fraction`: fraction of water cells in the clipped
`(2·radius+1)²` window centered at `(ci, cj)`. -/
def local_water_fraction (tiles_type : Grid) (ci cj : Int) (radius : Int) : Rat :=
  let w : Int := tiles_type.length
  let h : Int := grid_h tiles_type
  if w = 0 ∨ h = 0 then 0
  else
    let cells := (rangeZ (-radius) radius).flatMap (fun dj =>
      if cj + dj < 0 ∨ h ≤ cj + dj then []
      else (rangeZ (-radius) radius).filterMap (fun di =>
        if ci + di < 0 ∨ w ≤ ci + di then none else some (ci + di, cj + dj)))
    let total := cells.length
    let water := (cells.filter
      (fun c => cellGet tiles_type c.1 c.2 = WATER_TEMPLATE_ID)).length
    if total = 0 then 0 else (water : Rat) / (total : Rat)

/-- One iteration of the river-smoothing pass on a sample `(ii, jj, orient)`
(`orient`: 0 = vertical, otherwise horizontal).  `(ii + jj) & 1` is
`(ii + jj) % 2` on the nonnegative sample coordinates. -/
def river_step (st : Grid × Grid × Nat) (s : Int × Int × Nat) :
    Grid × Grid × Nat :=
  if cellGet st.1 s.1 s.2.1 ≠ WATER_TEMPLATE_ID then st
  else if RIVER_STAMP_SKIP_WATER_FRAC < local_water_fraction st.1 s.1 s.2.1 4 then st
  else if s.2.2 = 0 then
    let r := stamp_template st.1 st.2.1 (s.1 - 1) s.2.1 RIVER_TEMPLATE_VERT_CENTER
    (r.1, r.2.1, st.2.2 + r.2.2)
  else
    let templ := if (s.1 + s.2.1) % 2 = 0 then RIVER_TEMPLATE_HORIZ_TOP
      else RIVER_TEMPLATE_HORIZ_TOP_ALT
    let r := stamp_template st.1 st.2.1 s.1 s.2.1 templ
    (r.1, r.2.1, st.2.2 + r.2.2)

/-- The river-smoothing pass over the collected samples, in enumeration
order, accumulating the stamped-cell count. -/
def river_pass (tiles_type tiles_variant : Grid)
    (samples : List (Int × Int × Nat)) : Grid × Grid × Nat :=
  samples.foldl river_step (tiles_type, tiles_variant, 0)

/-- A 5×8 grid whose 9×9 window at (0,4), clipped to 5×8 = 40 cells, holds
exactly 18 water cells: water fraction exactly 18/40 = 0.45. -/
def c5grid : Grid :=
  [List.replicate 8 1, List.replicate 8 1,
   [1, 1, 255, 255, 255, 255, 255, 255],
   List.replicate 8 255, List.replicate 8 255]

/-! ## CoordinateMapper (`_latlon_to_cell`) and FeatureClassifier.
The geodesy collaborator `utm.from_latlon` is an external pure function
(spec §6); it is passed in as `proj`, returning
`(easting, northing, zone_number, zone_letter)`. -/

/-- `_latlon_to_cell`: project, drop on zone mismatch, else fractional cell
coordinates with y growing southward. -/
def latlon_to_cell (proj : Rat → Rat → Rat × Rat × Int × Char)
    (czn : Int) (czl : Char) (min_e max_n mpc : Rat) (lat lon : Rat) :
    Option (Rat × Rat) :=
  let r := proj lat lon
  if r.2.2.1 ≠ czn ∨ r.2.2.2 ≠ czl then none
  else some ((r.1 - min_e) / mpc, (max_n - r.2.1) / mpc)

/-- An upstream element: node, way (with node references and tags), or
relation (unused by the classifier, which skips non-ways). -/
inductive OsmElement where
  | node (id : Int) (lat lon : Rat)
  | way (id : Int) (nodeIds : List Int) (tags : List (String × String))
  | relation (id : Int)

/-- `tags.get(k)` on a JSON-object tag map (keys distinct). -/
def tagGet (tags : List (String × String)) (k : String) : Option String :=
  (tags.find? (fun e => e.1 == k)).map (fun e => e.2)

/-- Python `str.lower()` (ASCII tags only in the relevant comparisons). -/
def pyLower (s : String) : String := String.map Char.toLower s

/-- The forest-class tag test of the classifier. -/
def is_forest_tags (tags : List (String × String)) : Bool :=
  tagGet tags "natural" == some "wood" ||
  tagGet tags "landuse" == some "forest" ||
  tagGet tags "landcover" == some "trees"

/-- The built-up-class tag test: `landuse` (lowercased) in
{residential, industrial, commercial}. -/
def is_builtup_tags (tags : List (String × String)) : Bool :=
  ["residential", "industrial", "commercial"].contains
    (pyLower ((tagGet tags "landuse").getD ""))

/-- `_assemble_way_nodes`: resolve node references, project each, and drop
missing nodes and zone mismatches. -/
def assemble_way_nodes (nodes_by_id : Int → Option (Rat × Rat))
    (proj : Rat → Rat → Rat × Rat × Int × Char) (czn : Int) (czl : Char)
    (min_e max_n mpc : Rat) (nodeIds : List Int) : List (Rat × Rat) :=
  nodeIds.filterMap (fun nid =>
    match nodes_by_id nid with
    | none => none
    | some np => latlon_to_cell proj czn czl min_e max_n mpc np.1 np.2)

/-- The per-ring rasterization of the classifier: every cell center in the
ring's expanded, clipped bounding box that passes the even-odd test is added
to the forest set when the feature is forest-tagged, else to the built-up set
(the `elif` of the source). -/
def classify_ring (tiles_type : Grid) (ring : List (Rat × Rat))
    (is_forest : Bool) (sets : List (Int × Int) × List (Int × Int)) :
    List (Int × Int) × List (Int × Int) :=
  let w : Int := tiles_type.length
  let h : Int := grid_h tiles_type
  let xs := ring.map Prod.fst
  let ys := ring.map Prod.snd
  let xmin := max 0 (pyint (listMin xs) - 1)
  let xmax := min (w - 1) (pyint (listMax xs) + 1)
  let ymin := max 0 (pyint (listMin ys) - 1)
  let ymax := min (h - 1) (pyint (listMax ys) + 1)
  (windowPairs xmin xmax ymin ymax).foldl
    (fun s p =>
      if point_in_poly ((p.1 : Rat) + 1/2) ((p.2 : Rat) + 1/2) ring then
        if is_forest then (s.1.insert (p.1, p.2), s.2)
        else (s.1, s.2.insert (p.1, p.2))
      else s)
    sets

/-- The classifier pass of `overlay_osm_to_tiles` (lines building
`forest_cells` / `builtup_cells` from tagged way polygons): skip non-ways and
untagged ways, assemble and close the ring, and rasterize when it has at
least 3 vertices. -/
def classify_cells (proj : Rat → Rat → Rat × Rat × Int × Char)
    (czn : Int) (czl : Char) (min_e max_n mpc : Rat)
    (nodes_by_id : Int → Option (Rat × Rat)) (tiles_type : Grid)
    (elements : List OsmElement) :
    List (Int × Int) × List (Int × Int) :=
  elements.foldl
    (fun sets el =>
      match el with
      | .way _ nodeIds tags =>
        if is_forest_tags tags || is_builtup_tags tags then
          let ring := assemble_way_nodes nodes_by_id proj czn czl min_e max_n
            mpc nodeIds
          if 3 ≤ ring.length then
            let ring2 := if ring.head? ≠ ring.getLast? then
              ring ++ [ring.headD (0, 0)] else ring
            classify_ring tiles_type ring2 (is_forest_tags tags) sets
          else sets
        else sets
      | _ => sets)
    ([], [])

/-- A degenerate geodesy collaborator for concrete instances: easting = lon,
northing = lat, constant zone 1 / letter N. -/
def c6proj : Rat → Rat → Rat × Rat × Int × Char :=
  fun lat lon => (lon, lat, 1, 'N')

/-- Concrete node store: the four corners of a square covering cells
(0,0)–(1,1) under `c6proj` with `min_e = 0`, `max_n = 10`, `mpc = 1`. -/
def c6nodes : Int → Option (Rat × Rat) :=
  fun nid =>
    if nid = 1 then some (10, 0)
    else if nid = 2 then some (10, 2)
    else if nid = 3 then some (8, 2)
    else if nid = 4 then some (8, 0)
    else none

/-- A 4×4 all-clear grid. -/
def c6grid : Grid := List.replicate 4 (List.replicate 4 255)

/-- Two distinct overlapping polygons: one forest-tagged, one built-up-tagged,
with identical rings. -/
def c6elements : List OsmElement :=
  [OsmElement.way 1 [1, 2, 3, 4] [("natural", "wood")],
   OsmElement.way 2 [1, 2, 3, 4] [("landuse", "residential")]]

/-! ### Encoder lemmas -/

theorem seqOpt_const_some {α β : Type} (l : List α) (a : β) :
    seqOpt l (fun _ => (some a : Option β)) = some (List.replicate l.length a) := by
  induction l with
  | nil => rfl
  | cons x xs ih => rw [seqOpt, ih]; rfl

theorem flatten_replicate_length {β : Type} (n : Nat) (x : List β) :
    ((List.replicate n x).flatten).length = n * x.length := by
  induction n with
  | zero => simp
  | succ k ih => simp [List.replicate_succ, ih, Nat.succ_mul, Nat.add_comm]

theorem flatMap_const_length {α β : Type} (l : List α) (x : List β) :
    (l.flatMap (fun _ => x)).length = l.length * x.length := by
  induction l with
  | nil => simp
  | cons y ys ih => simp [ih, Nat.succ_mul, Nat.add_comm]

theorem build_map_bin_eq (w h : Nat) (hw : w < 65536) (hh : h < 65536)
    (hro : 3 * w * h + 17 < 4294967296) :
    build_map_bin w h false 255 0 =
      some ([2, w % 256, w / 256 % 256, h % 256, h / 256 % 256,
             17, 0, 0, 0, 0, 0, 0, 0,
             (3 * w * h + 17) % 256, (3 * w * h + 17) / 256 % 256,
             (3 * w * h + 17) / 65536 % 256, (3 * w * h + 17) / 16777216 % 256]
            ++ (List.replicate w ((List.replicate h ([255, 0, 0] : List Nat)).flatten)).flatten
            ++ (List.range (w * h)).flatMap (fun _ => [0, 0])) := by
  have h255 : le_u16 255 = some [255, 0] := by decide
  have hcell : (fun (_ : Nat) => do
      let c ← le_u16 255
      pure (c ++ [0 % 256])) = (fun _ => some ([255, 0, 0] : List Nat)) := by
    funext _; rw [h255]; rfl
  simp only [build_map_bin, le_u16, le_u32, if_pos hw, if_pos hh, if_pos hro,
    Bool.false_eq_true, if_false, hcell, seqOpt_const_some, List.length_range,
    if_pos (by norm_num : (17 : Nat) < 4294967296),
    if_pos (by norm_num : (0 : Nat) < 4294967296)]
  simp [seqOpt_const_some, List.map_replicate]

/-- C1 (amended): with `w`, `h` representable as uint16 and the resources
offset `3*w*h + 17` representable as uint32, the heights-absent encoding is
`17 + 3*w*h + 2*w*h` bytes whose 17-byte header is exactly as claimed; in
particular `w = h = 2` gives 37 bytes with header
`[2, 2,0, 2,0, 17,0,0,0, 0,0,0,0, 29,0,0,0]`. -/
theorem c1_encoder_size_and_header (w h : Nat) (hw1 : 1 ≤ w) (hh1 : 1 ≤ h)
    (hw : w < 65536) (hh : h < 65536) (hro : 3 * w * h + 17 < 4294967296) :
    (∃ l : List Nat,
      build_map_bin w h false 255 0 = some l ∧
      l.length = 17 + 3 * w * h + 2 * w * h ∧
      l.take 17 = [2, w % 256, w / 256 % 256, h % 256, h / 256 % 256,
                   17, 0, 0, 0, 0, 0, 0, 0,
                   (3 * w * h + 17) % 256, (3 * w * h + 17) / 256 % 256,
                   (3 * w * h + 17) / 65536 % 256,
                   (3 * w * h + 17) / 16777216 % 256]) ∧
    build_map_bin 2 2 false 255 0 =
      some [2, 2, 0, 2, 0, 17, 0, 0, 0, 0, 0, 0, 0, 29, 0, 0, 0,
            255, 0, 0, 255, 0, 0, 255, 0, 0, 255, 0, 0,
            0, 0, 0, 0, 0, 0, 0, 0] := by
  refine ⟨⟨_, build_map_bin_eq w h hw hh hro, ?_, ?_⟩, by decide⟩
  · have hinner : ((List.replicate h ([255, 0, 0] : List Nat)).flatten).length
        = h * 3 := by
      simpa using flatten_replicate_length h ([255, 0, 0] : List Nat)
    have houter :
        ((List.replicate w ((List.replicate h ([255, 0, 0] : List Nat)).flatten)).flatten).length
        = w * (h * 3) := by
      have := flatten_replicate_length w
        ((List.replicate h ([255, 0, 0] : List Nat)).flatten)
      simpa [hinner] using this
    have hres : (((List.range (w * h)).flatMap (fun _ => ([0, 0] : List Nat)))).length
        = (w * h) * 2 := by
      simpa using flatMap_const_length (List.range (w * h)) ([0, 0] : List Nat)
    simp only [List.length_append, houter, hres, List.length_cons, List.length_nil]
    ring_nf
  · rw [List.take_append_of_le_length (by simp)]
    simp

/-- C1 counterexample: at `w = 65536`, `h = 1` (both `≥ 1`) the encoder does
not produce a byte string at all — `_le_u16(width)` raises `OverflowError` —
so the claimed length/header statement fails there. -/
theorem c1_counterexample_width_overflow :
    build_map_bin 65536 1 false 255 0 = none := by decide

/-- C10: an empty tile grid (no columns, or an empty first column) makes both
grid encoders return the empty byte string, without failing. -/
theorem c10_empty_grid_encodes_empty (tiles_type tiles_variant : Grid)
    (ih : Bool) (hempty : tiles_type = [] ∨ tiles_type.headD [] = []) :
    build_map_bin_from_grid tiles_type tiles_variant ih = some [] ∧
    build_map_bin_from_grid_enhance tiles_type tiles_variant ih = some [] := by
  constructor
  · rw [build_map_bin_from_grid, if_pos hempty]
  · rw [build_map_bin_from_grid_enhance, if_pos hempty]

/-- C10 witness: concrete empty grids. -/
theorem c10_empty_grid_encodes_empty_witness :
    build_map_bin_from_grid [] [[1]] false = some [] ∧
    build_map_bin_from_grid_enhance ([] :: [[2]]) [] true = some [] :=
  ⟨(c10_empty_grid_encodes_empty [] [[1]] false (Or.inl rfl)).1,
   (c10_empty_grid_encodes_empty ([] :: [[2]]) [] true (Or.inr rfl)).2⟩

/-- C1 witness: the amended encoder statement applied at `w = h = 2`. -/
theorem c1_encoder_size_and_header_witness :
    (1 ≤ 2 ∧ 2 < 65536 ∧ 3 * 2 * 2 + 17 < 4294967296) ∧
    (∃ l : List Nat,
      build_map_bin 2 2 false 255 0 = some l ∧
      l.length = 17 + 3 * 2 * 2 + 2 * 2 * 2 ∧
      l.take 17 = [2, 2 % 256, 2 / 256 % 256, 2 % 256, 2 / 256 % 256,
                   17, 0, 0, 0, 0, 0, 0, 0,
                   (3 * 2 * 2 + 17) % 256, (3 * 2 * 2 + 17) / 256 % 256,
                   (3 * 2 * 2 + 17) / 65536 % 256,
                   (3 * 2 * 2 + 17) / 16777216 % 256]) :=
  ⟨⟨by norm_num, by norm_num, by norm_num⟩,
   (c1_encoder_size_and_header 2 2 (by norm_num) (by norm_num) (by norm_num)
      (by norm_num) (by norm_num)).1⟩

/-! ### List and grid access lemmas -/

theorem getD_set_ne {α : Type} (l : List α) (a b : Nat) (x d : α) (h : a ≠ b) :
    (l.set a x).getD b d = l.getD b d := by
  induction l generalizing a b with
  | nil => simp
  | cons y ys ih =>
    cases a with
    | zero => cases b with
      | zero => exact absurd rfl h
      | succ b => simp
    | succ a => cases b with
      | zero => simp
      | succ b => simpa using ih a b (by omega)

theorem getD_set_self {α : Type} (l : List α) (a : Nat) (x d : α)
    (h : a < l.length) : (l.set a x).getD a d = x := by
  induction l generalizing a with
  | nil => simp at h
  | cons y ys ih =>
    cases a with
    | zero => simp
    | succ a => simpa using ih a (by simpa using h)

theorem getD_map_length (g : Grid) (n : Nat) :
    (g.map List.length).getD n 0 = (g.getD n []).length := by
  induction g generalizing n with
  | nil => simp
  | cons c cs ih =>
    cases n with
    | zero => simp
    | succ n => simpa using ih n

theorem grid_h_eq_headD (g : Grid) :
    grid_h g = (g.map List.length).headD 0 := by
  cases g <;> rfl

theorem set_getD_self {α : Type} (l : List α) (n : Nat) (d : α)
    (h : n < l.length) : l.set n (l.getD n d) = l := by
  induction l generalizing n with
  | nil => simp at h
  | cons a as ih =>
    cases n with
    | zero => simp
    | succ n =>
      have := ih n (by simpa using h)
      simpa [List.getD] using this

theorem cellSet_dims (g : Grid) (i j : Int) (v : Int) :
    (cellSet g i j v).map List.length = g.map List.length := by
  unfold cellSet
  rw [List.map_set, List.length_set]
  by_cases h : i.toNat < g.length
  · rw [← getD_map_length g i.toNat]
    exact set_getD_self (g.map List.length) i.toNat 0 (by simpa using h)
  · exact List.set_eq_of_length_le (by simpa using Nat.le_of_not_lt h)

theorem cellSet_length (g : Grid) (i j : Int) (v : Int) :
    (cellSet g i j v).length = g.length := by
  have := congrArg List.length (cellSet_dims g i j v)
  simpa using this

theorem cellSet_grid_h (g : Grid) (i j : Int) (v : Int) :
    grid_h (cellSet g i j v) = grid_h g := by
  rw [grid_h_eq_headD, grid_h_eq_headD, cellSet_dims]

theorem valid_iff_dims (g : Grid) (p : Int × Int) :
    Valid g p ↔ 0 ≤ p.1 ∧ 0 ≤ p.2 ∧ p.1.toNat < (g.map List.length).length ∧
      p.2.toNat < (g.map List.length).getD p.1.toNat 0 := by
  unfold Valid
  rw [getD_map_length, List.length_map]

theorem valid_congr {g g' : Grid} (h : g.map List.length = g'.map List.length)
    (p : Int × Int) : Valid g p ↔ Valid g' p := by
  rw [valid_iff_dims, valid_iff_dims, h]

theorem cellGet_cellSet_same (g : Grid) (i j : Int) (v : Int)
    (hval : Valid g (i, j)) : cellGet (cellSet g i j v) i j = v := by
  obtain ⟨hi, hj, hrow, hcol⟩ := hval
  unfold cellGet cellSet
  rw [getD_set_self _ _ _ _ (by simpa using hrow)]
  exact getD_set_self _ _ _ _ hcol

theorem cellGet_cellSet_other (g : Grid) (i j x y : Int) (v : Int)
    (hi : 0 ≤ i) (hj : 0 ≤ j) (hx : 0 ≤ x) (hy : 0 ≤ y)
    (hne : ¬(x = i ∧ y = j)) :
    cellGet (cellSet g i j v) x y = cellGet g x y := by
  unfold cellGet cellSet
  by_cases hxi : x = i
  · subst hxi
    have hyj : y ≠ j := fun h => hne ⟨rfl, h⟩
    by_cases hrow : x.toNat < g.length
    · rw [getD_set_self _ _ _ _ (by simpa using hrow)]
      exact getD_set_ne _ _ _ _ _ (by omega)
    · rw [List.set_eq_of_length_le (by omega)]
  · have : x.toNat ≠ i.toNat := by omega
    rw [getD_set_ne _ _ _ _ _ (fun h => this h.symm)]

/-! ### Generic write-loop lemmas -/

theorem scanStep_dims (v : Int) (cond : Int × Int → Bool) (st : Grid × Nat)
    (p : Int × Int) :
    ((scanStep v cond st p).1).map List.length = (st.1).map List.length := by
  unfold scanStep
  split
  · split
    · simp [cellSet_dims]
    · rfl
  · rfl

theorem scanFold_dims (v : Int) (cond : Int × Int → Bool) :
    ∀ (ps : List (Int × Int)) (st : Grid × Nat),
    ((scanFold v cond ps st).1).map List.length = (st.1).map List.length := by
  intro ps
  induction ps with
  | nil => intro st; rfl
  | cons p ps ih =>
    intro st
    rw [scanFold, ih, scanStep_dims]

theorem scanStep_cellGet (v : Int) (cond : Int × Int → Bool) (st : Grid × Nat)
    (p : Int × Int) (x y : Int) (hx : 0 ≤ x) (hy : 0 ≤ y)
    (hval : Valid st.1 p) :
    cellGet (scanStep v cond st p).1 x y =
      if (x, y) = p ∧ cond p = true then v else cellGet st.1 x y := by
  have hp1 : 0 ≤ p.1 := hval.1
  have hp2 : 0 ≤ p.2 := hval.2.1
  unfold scanStep
  by_cases hc : cond p = true
  · rw [if_pos hc]
    by_cases hv : cellGet st.1 p.1 p.2 ≠ v
    · rw [if_pos hv]
      by_cases hxy : (x, y) = p
      · have h1 : x = p.1 := congrArg Prod.fst hxy
        have h2 : y = p.2 := congrArg Prod.snd hxy
        subst h1; subst h2
        rw [if_pos ⟨rfl, hc⟩]
        exact cellGet_cellSet_same st.1 p.1 p.2 v
          ⟨hval.1, hval.2.1, hval.2.2.1, hval.2.2.2⟩
      · rw [if_neg (fun h => hxy h.1)]
        refine cellGet_cellSet_other st.1 p.1 p.2 x y v hp1 hp2 hx hy ?_
        intro ⟨h1, h2⟩
        exact hxy (by rw [h1, h2])
    · rw [if_neg hv]
      push_neg at hv
      by_cases hxy : (x, y) = p
      · have h1 : x = p.1 := congrArg Prod.fst hxy
        have h2 : y = p.2 := congrArg Prod.snd hxy
        rw [if_pos ⟨hxy, hc⟩, h1, h2, hv]
      · rw [if_neg (fun h => hxy h.1)]
  · rw [if_neg hc, if_neg (fun h => hc h.2)]

theorem scanFold_cellGet (v : Int) (cond : Int × Int → Bool) :
    ∀ (ps : List (Int × Int)) (st : Grid × Nat) (x y : Int),
    0 ≤ x → 0 ≤ y → (∀ p ∈ ps, Valid st.1 p) →
    cellGet (scanFold v cond ps st).1 x y =
      if (x, y) ∈ ps ∧ cond (x, y) = true then v else cellGet st.1 x y := by
  intro ps
  induction ps with
  | nil => intro st x y _ _ _; simp [scanFold]
  | cons p ps ih =>
    intro st x y hx hy hval
    have hvp : Valid st.1 p := hval p (List.mem_cons_self p ps)
    have hd : ((scanStep v cond st p).1).map List.length = (st.1).map List.length :=
      scanStep_dims v cond st p
    have hval' : ∀ q ∈ ps, Valid (scanStep v cond st p).1 q := fun q hq =>
      (valid_congr hd.symm q).mp (hval q (List.mem_cons_of_mem p hq))
    rw [scanFold, ih (scanStep v cond st p) x y hx hy hval',
      scanStep_cellGet v cond st p x y hx hy hvp]
    simp only [List.mem_cons]
    by_cases h1 : cond (x, y) = true
    · by_cases h3 : (x, y) ∈ ps
      · rw [if_pos ⟨h3, h1⟩, if_pos ⟨Or.inr h3, h1⟩]
      · rw [if_neg (fun h => h3 h.1)]
        by_cases h2 : (x, y) = p
        · have hcp : cond p = true := by rw [← h2]; exact h1
          rw [if_pos ⟨h2, hcp⟩, if_pos ⟨Or.inl h2, h1⟩]
        · rw [if_neg (fun h => h2 h.1),
            if_neg (fun h => h.1.elim (fun e => h2 e) (fun m => h3 m))]
    · rw [if_neg (fun h => h1 h.2),
        if_neg (fun h => h1 (by rw [h.1]; exact h.2)),
        if_neg (fun h => h1 h.2)]

theorem scanFold_count (v : Int) (cond : Int × Int → Bool) :
    ∀ (ps : List (Int × Int)) (st : Grid × Nat),
    ps.Nodup → (∀ p ∈ ps, Valid st.1 p) →
    (scanFold v cond ps st).2 =
      st.2 + (ps.filter
        (fun p => cond p && decide (cellGet st.1 p.1 p.2 ≠ v))).length := by
  intro ps
  induction ps with
  | nil => intro st _ _; simp [scanFold]
  | cons p ps ih =>
    intro st hnd hval
    have hpx : p ∉ ps := (List.nodup_cons.mp hnd).1
    have hnd' : ps.Nodup := (List.nodup_cons.mp hnd).2
    have hvp : Valid st.1 p := hval p (List.mem_cons_self p ps)
    rw [scanFold]
    by_cases hc : cond p = true
    · by_cases hv : cellGet st.1 p.1 p.2 ≠ v
      · have hstep : scanStep v cond st p = (cellSet st.1 p.1 p.2 v, st.2 + 1) := by
          unfold scanStep; rw [if_pos hc, if_pos hv]
        rw [hstep]
        have hval' : ∀ q ∈ ps, Valid (cellSet st.1 p.1 p.2 v) q := fun q hq =>
          (valid_congr (cellSet_dims st.1 p.1 p.2 v).symm q).mp
            (hval q (List.mem_cons_of_mem p hq))
        rw [ih (cellSet st.1 p.1 p.2 v, st.2 + 1) hnd' hval']
        have hfc : ps.filter
            (fun q => cond q && decide (cellGet (cellSet st.1 p.1 p.2 v) q.1 q.2 ≠ v)) =
          ps.filter (fun q => cond q && decide (cellGet st.1 q.1 q.2 ≠ v)) := by
          apply List.filter_congr
          intro q hq
          have hvq := hval q (List.mem_cons_of_mem p hq)
          have hqp : ¬(q.1 = p.1 ∧ q.2 = p.2) := by
            intro ⟨e1, e2⟩
            exact hpx (by
              have : q = p := Prod.ext e1 e2
              rwa [this] at hq)
          rw [cellGet_cellSet_other st.1 p.1 p.2 q.1 q.2 v hvp.1 hvp.2.1
            hvq.1 hvq.2.1 hqp]
        rw [hfc, List.filter_cons_of_pos (by simp [hc, hv])]
        simp only [List.length_cons]
        omega
      · have hstep : scanStep v cond st p = st := by
          unfold scanStep; rw [if_pos hc, if_neg hv]
        rw [hstep, ih st hnd' (fun q hq => hval q (List.mem_cons_of_mem p hq)),
          List.filter_cons_of_neg (by simp [hc]; push_neg at hv; exact hv)]
    · have hstep : scanStep v cond st p = st := by
        unfold scanStep; rw [if_neg hc]
      rw [hstep, ih st hnd' (fun q hq => hval q (List.mem_cons_of_mem p hq)),
        List.filter_cons_of_neg (by simp [hc])]

theorem scanFold_nochange (v : Int) (cond : Int × Int → Bool) :
    ∀ (ps : List (Int × Int)) (st : Grid × Nat),
    (∀ p ∈ ps, cond p = true → cellGet st.1 p.1 p.2 = v) →
    scanFold v cond ps st = st := by
  intro ps
  induction ps with
  | nil => intro st _; rfl
  | cons p ps ih =>
    intro st hall
    have hstep : scanStep v cond st p = st := by
      unfold scanStep
      by_cases hc : cond p = true
      · rw [if_pos hc, if_neg (by simpa using hall p (List.mem_cons_self p ps) hc)]
      · rw [if_neg hc]
    rw [scanFold, hstep]
    exact ih st (fun q hq => hall q (List.mem_cons_of_mem p hq))

/-! ### Range and window lemmas -/

theorem mem_rangeZ {a b x : Int} : x ∈ rangeZ a b ↔ a ≤ x ∧ x ≤ b := by
  unfold rangeZ
  simp only [List.mem_map, List.mem_range]
  constructor
  · rintro ⟨k, hk, rfl⟩
    omega
  · intro ⟨h1, h2⟩
    exact ⟨(x - a).toNat, by omega, by omega⟩

theorem rangeZ_nodup (a b : Int) : (rangeZ a b).Nodup := by
  have hinj : Function.Injective (fun k : Nat => a + (k : Int)) := by
    intro k1 k2 h
    simpa using h
  exact List.Nodup.map hinj (List.nodup_range _)

theorem mem_windowPairs {p : Int × Int} {x0 x1 y0 y1 : Int} :
    p ∈ windowPairs x0 x1 y0 y1 ↔
      (x0 ≤ p.1 ∧ p.1 ≤ x1) ∧ (y0 ≤ p.2 ∧ p.2 ≤ y1) := by
  obtain ⟨px, py⟩ := p
  unfold windowPairs
  simp only [List.mem_flatMap, List.mem_map, mem_rangeZ]
  constructor
  · rintro ⟨i, hi, j, hj, hp⟩
    injection hp with e1 e2
    subst e1; subst e2
    exact ⟨hi, hj⟩
  · intro ⟨h1, h2⟩
    exact ⟨px, h1, py, h2, rfl⟩

theorem windowPairs_nodup (x0 x1 y0 y1 : Int) :
    (windowPairs x0 x1 y0 y1).Nodup :=
  List.Nodup.product (rangeZ_nodup x0 x1) (rangeZ_nodup y0 y1)

theorem getD_mem {α : Type} (l : List α) (n : Nat) (d : α) (h : n < l.length) :
    l.getD n d ∈ l := by
  induction l generalizing n with
  | nil => simp at h
  | cons a as ih =>
    cases n with
    | zero => simp
    | succ n =>
      have := ih n (by simpa using h)
      simp only [List.getD_cons_succ]
      exact List.mem_cons_of_mem a this

theorem filter_length_eq_of_nodup {α : Type} [DecidableEq α]
    (l1 l2 : List α) (f1 f2 : α → Bool) (h1 : l1.Nodup) (h2 : l2.Nodup)
    (hiff : ∀ x, (x ∈ l1 ∧ f1 x = true) ↔ (x ∈ l2 ∧ f2 x = true)) :
    (l1.filter f1).length = (l2.filter f2).length := by
  rw [← List.toFinset_card_of_nodup (h1.filter f1),
    ← List.toFinset_card_of_nodup (h2.filter f2)]
  congr 1
  ext x
  simp only [List.mem_toFinset, List.mem_filter]
  exact hiff x

theorem window_valid (g : Grid) (hg : Rect g) (x0 x1 y0 y1 : Int)
    (hx0 : 0 ≤ x0) (hy0 : 0 ≤ y0) (hx1 : x1 ≤ (g.length : Int) - 1)
    (hy1 : y1 ≤ (grid_h g : Int) - 1) :
    ∀ p ∈ windowPairs x0 x1 y0 y1, Valid g p := by
  intro p hp
  obtain ⟨⟨ha, hb⟩, hc, hd⟩ := mem_windowPairs.mp hp
  have hrow : p.1.toNat < g.length := by omega
  refine ⟨by omega, by omega, hrow, ?_⟩
  have hmem : g.getD p.1.toNat [] ∈ g := getD_mem g p.1.toNat [] hrow
  rw [hg _ hmem]
  omega

/-- After a write pass over a clipped window starting from count 0, the
returned count is exactly the number of cells whose stored value changed. -/
theorem scanPass_count (g : Grid) (hg : Rect g) (v : Int)
    (cond : Int × Int → Bool) (x0 x1 y0 y1 : Int)
    (hx0 : 0 ≤ x0) (hy0 : 0 ≤ y0) (hx1 : x1 ≤ (g.length : Int) - 1)
    (hy1 : y1 ≤ (grid_h g : Int) - 1) :
    (scanFold v cond (windowPairs x0 x1 y0 y1) (g, 0)).2 =
      changedCount g (scanFold v cond (windowPairs x0 x1 y0 y1) (g, 0)).1 := by
  have hval : ∀ p ∈ windowPairs x0 x1 y0 y1, Valid g p :=
    window_valid g hg x0 x1 y0 y1 hx0 hy0 hx1 hy1
  rw [scanFold_count v cond (windowPairs x0 x1 y0 y1) (g, 0)
    (windowPairs_nodup x0 x1 y0 y1) hval]
  simp only [Nat.zero_add]
  unfold changedCount allCells
  refine (filter_length_eq_of_nodup _ _ _ _
    (windowPairs_nodup 0 _ 0 _) (windowPairs_nodup x0 x1 y0 y1) ?_).symm
  intro p
  constructor
  · intro ⟨hmem, hch⟩
    obtain ⟨⟨ha, hb⟩, hc, hd⟩ := mem_windowPairs.mp hmem
    have hch' : cellGet (scanFold v cond (windowPairs x0 x1 y0 y1) (g, 0)).1 p.1 p.2
        ≠ cellGet g p.1 p.2 := by simpa using hch
    rw [scanFold_cellGet v cond (windowPairs x0 x1 y0 y1) (g, 0) p.1 p.2
      (by omega) (by omega) hval] at hch'
    by_cases hin : (p.1, p.2) ∈ windowPairs x0 x1 y0 y1 ∧ cond (p.1, p.2) = true
    · rw [if_pos hin] at hch'
      refine ⟨by simpa using hin.1, ?_⟩
      simp only [Bool.and_eq_true, decide_eq_true_eq]
      exact ⟨by simpa using hin.2, fun h => hch' (by rw [h])⟩
    · rw [if_neg hin] at hch'
      exact absurd rfl hch'
  · intro ⟨hmem, hpred⟩
    simp only [Bool.and_eq_true, decide_eq_true_eq] at hpred
    obtain ⟨⟨ha, hb⟩, hc, hd⟩ := mem_windowPairs.mp hmem
    have hget : cellGet (scanFold v cond (windowPairs x0 x1 y0 y1) (g, 0)).1 p.1 p.2
        = v := by
      rw [scanFold_cellGet v cond (windowPairs x0 x1 y0 y1) (g, 0) p.1 p.2
        (by omega) (by omega) hval, if_pos ⟨by simpa using hmem, by simpa using hpred.1⟩]
    constructor
    · refine mem_windowPairs.mpr ⟨⟨by omega, ?_⟩, by omega, ?_⟩
      · have := (mem_windowPairs.mp hmem).1.2
        omega
      · have := (mem_windowPairs.mp hmem).2.2
        omega
    · simp only [decide_eq_true_eq]
      intro heq
      exact hpred.2 (by rw [← hget, heq])

/-- Re-running the same write pass on its own output changes nothing. -/
theorem scanPass_rescan (g : Grid) (hg : Rect g) (v : Int)
    (cond : Int × Int → Bool) (x0 x1 y0 y1 : Int)
    (hx0 : 0 ≤ x0) (hy0 : 0 ≤ y0) (hx1 : x1 ≤ (g.length : Int) - 1)
    (hy1 : y1 ≤ (grid_h g : Int) - 1) :
    scanFold v cond (windowPairs x0 x1 y0 y1)
      ((scanFold v cond (windowPairs x0 x1 y0 y1) (g, 0)).1, 0) =
      ((scanFold v cond (windowPairs x0 x1 y0 y1) (g, 0)).1, 0) := by
  have hval : ∀ p ∈ windowPairs x0 x1 y0 y1, Valid g p :=
    window_valid g hg x0 x1 y0 y1 hx0 hy0 hx1 hy1
  apply scanFold_nochange
  intro p hp hcp
  obtain ⟨⟨ha, hb⟩, hc, hd⟩ := mem_windowPairs.mp hp
  rw [scanFold_cellGet v cond (windowPairs x0 x1 y0 y1) (g, 0) p.1 p.2
    (by omega) (by omega) hval, if_pos ⟨by simpa using hp, by simpa using hcp⟩]

theorem scanFold_fst_length (v : Int) (cond : Int × Int → Bool)
    (ps : List (Int × Int)) (st : Grid × Nat) :
    (scanFold v cond ps st).1.length = st.1.length := by
  have := congrArg List.length (scanFold_dims v cond ps st)
  simpa using this

theorem scanFold_fst_grid_h (v : Int) (cond : Int × Int → Bool)
    (ps : List (Int × Int)) (st : Grid × Nat) :
    grid_h (scanFold v cond ps st).1 = grid_h st.1 := by
  rw [grid_h_eq_headD, grid_h_eq_headD, scanFold_dims]

theorem changedCount_self (g : Grid) : changedCount g g = 0 := by
  unfold changedCount
  simp

/-- C8: `drawDisc` and `fillPolygon` report exactly the number of cells whose
stored value changed, and re-running either with identical arguments on the
resulting grid changes zero cells and returns 0. -/
theorem c8_raster_change_count_idempotent (g : Grid) (hg : Rect g)
    (cx cy r : Rat) (v : Int) (poly : List (Rat × Rat)) :
    ((draw_disc g cx cy r v).2 = changedCount g (draw_disc g cx cy r v).1 ∧
      draw_disc (draw_disc g cx cy r v).1 cx cy r v =
        ((draw_disc g cx cy r v).1, 0)) ∧
    ((fill_polygon g poly v).2 = changedCount g (fill_polygon g poly v).1 ∧
      fill_polygon (fill_polygon g poly v).1 poly v =
        ((fill_polygon g poly v).1, 0)) := by
  constructor
  · constructor
    · simp only [draw_disc]
      exact scanPass_count g hg v _ _ _ _ _ (le_max_left _ _) (le_max_left _ _)
        (min_le_left _ _) (min_le_left _ _)
    · simp only [draw_disc]
      simp only [scanFold_fst_length, scanFold_fst_grid_h]
      exact scanPass_rescan g hg v _ _ _ _ _ (le_max_left _ _) (le_max_left _ _)
        (min_le_left _ _) (min_le_left _ _)
  · by_cases hpoly : poly = []
    · subst hpoly
      refine ⟨?_, by simp [fill_polygon]⟩
      simp [fill_polygon, changedCount_self]
    · constructor
      · simp only [fill_polygon, if_neg hpoly]
        exact scanPass_count g hg v _ _ _ _ _ (le_max_left _ _) (le_max_left _ _)
          (min_le_left _ _) (min_le_left _ _)
      · simp only [fill_polygon, if_neg hpoly]
        simp only [scanFold_fst_length, scanFold_fst_grid_h]
        exact scanPass_rescan g hg v _ _ _ _ _ (le_max_left _ _) (le_max_left _ _)
          (min_le_left _ _) (min_le_left _ _)

/-- C8 witness: a concrete rectangular grid with a concrete disc and ring. -/
theorem c8_raster_change_count_idempotent_witness :
    (∀ c ∈ [[0, 0], [0, 0]], List.length c = grid_h [[0, 0], [0, 0]]) ∧
    (((draw_disc [[0, 0], [0, 0]] (1/2) (1/2) 1 7).2 =
        changedCount [[0, 0], [0, 0]] (draw_disc [[0, 0], [0, 0]] (1/2) (1/2) 1 7).1 ∧
      draw_disc (draw_disc [[0, 0], [0, 0]] (1/2) (1/2) 1 7).1 (1/2) (1/2) 1 7 =
        ((draw_disc [[0, 0], [0, 0]] (1/2) (1/2) 1 7).1, 0)) ∧
    ((fill_polygon [[0, 0], [0, 0]] [(0, 0), (2, 0), (2, 2), (0, 2), (0, 0)] 7).2 =
        changedCount [[0, 0], [0, 0]]
          (fill_polygon [[0, 0], [0, 0]] [(0, 0), (2, 0), (2, 2), (0, 2), (0, 0)] 7).1 ∧
      fill_polygon
        (fill_polygon [[0, 0], [0, 0]] [(0, 0), (2, 0), (2, 2), (0, 2), (0, 0)] 7).1
        [(0, 0), (2, 0), (2, 2), (0, 2), (0, 0)] 7 =
        ((fill_polygon [[0, 0], [0, 0]] [(0, 0), (2, 0), (2, 2), (0, 2), (0, 0)] 7).1, 0))) :=
  ⟨by decide, c8_raster_change_count_idempotent [[0, 0], [0, 0]] (by unfold Rect; decide)
    (1/2) (1/2) 1 7 [(0, 0), (2, 0), (2, 2), (0, 2), (0, 0)]⟩

/-- C9: a ring with fewer than 3 vertices makes `fillPolygon` a no-op — the
grid is unchanged and the returned change count is 0, with no failure. -/
theorem c9_degenerate_ring_noop (g : Grid) (poly : List (Rat × Rat)) (v : Int)
    (hpoly : poly.length < 3) : fill_polygon g poly v = (g, 0) := by
  by_cases hnil : poly = []
  · simp [fill_polygon, hnil]
  · simp only [fill_polygon, if_neg hnil]
    apply scanFold_nochange
    intro p _ hcp
    exfalso
    have hfalse : point_in_poly ((p.1 : Rat) + 1/2) ((p.2 : Rat) + 1/2) poly
        = false := by
      unfold point_in_poly
      rw [if_pos hpoly]
    rw [hfalse] at hcp
    exact Bool.false_ne_true hcp

/-- C9 witness: a two-vertex ring on a concrete grid. -/
theorem c9_degenerate_ring_noop_witness :
    ([((0 : Rat), (0 : Rat)), (1, 1)].length < 3) ∧
    fill_polygon [[5]] [((0 : Rat), (0 : Rat)), (1, 1)] 7 = ([[5]], 0) :=
  ⟨by decide, c9_degenerate_ring_noop [[5]] [((0 : Rat), (0 : Rat)), (1, 1)] 7
    (by decide)⟩

/-! ### Building placement lemmas -/

theorem mem_foldl_insert {a : Int × Int} :
    ∀ (cells occ : List (Int × Int)), a ∈ occ →
    a ∈ cells.foldl (fun o c => o.insert c) occ := by
  intro cells
  induction cells with
  | nil => exact fun occ h => h
  | cons c cs ih =>
    intro occ h
    exact ih (occ.insert c) (List.mem_insert_iff.mpr (Or.inr h))

theorem subset_foldl_insert {a : Int × Int} :
    ∀ (cells occ : List (Int × Int)), a ∈ cells →
    a ∈ cells.foldl (fun o c => o.insert c) occ := by
  intro cells
  induction cells with
  | nil => intro occ h; simp at h
  | cons c cs ih =>
    intro occ h
    rcases List.mem_cons.mp h with h1 | h2
    · subst h1
      exact mem_foldl_insert cs (occ.insert a) (List.mem_insert_iff.mpr (Or.inl rfl))
    · exact ih _ h2

theorem can_place_not_occupied (ctx : BCtx) (occ : List (Int × Int))
    (i0 j0 : Int) (wf hf : Nat) (h : can_place ctx occ i0 j0 wf hf = true) :
    ∀ c ∈ footprintCells i0 j0 wf hf, c ∉ occ := by
  intro c hc hmem
  unfold can_place at h
  split at h
  · exact Bool.false_ne_true h
  · simp only [footprintCells, List.mem_flatMap, List.mem_map, List.mem_range] at hc
    obtain ⟨dx, hdx, dy, hdy, hcell⟩ := hc
    have hall := (List.all_eq_true.mp h) dx (List.mem_range.mpr hdx)
    have hbody := (List.all_eq_true.mp hall) dy (List.mem_range.mpr hdy)
    simp only [Bool.and_eq_true, Bool.not_eq_true'] at hbody
    have hcon := hbody.2
    rw [← hcell] at hmem
    rw [List.contains_eq_any_beq, List.any_eq_false] at hcon
    have := hcon _ hmem
    simp at this

theorem findPlacement_can_place (ctx : BCtx) (occ : List (Int × Int))
    (r ai aj : Int) :
    ∀ (ds : List (Nat × Nat)) (wf hf : Nat) (ci cj : Int),
    findPlacement ctx occ r ai aj ds = some (wf, hf, ci, cj) →
    can_place ctx occ ci cj wf hf = true := by
  intro ds
  induction ds with
  | nil => intro wf hf ci cj h; simp [findPlacement] at h
  | cons d rest ih =>
    intro wf hf ci cj h
    rw [findPlacement] at h
    by_cases hbd : by_dims d = []
    · rw [if_pos hbd] at h
      exact ih wf hf ci cj h
    · rw [if_neg hbd] at h
      cases hfind : (searchPositions r ai aj).find?
          (fun p => can_place ctx occ p.1 p.2 d.1 d.2) with
      | none =>
        rw [hfind] at h
        exact ih wf hf ci cj h
      | some p =>
        rw [hfind] at h
        have hp : can_place ctx occ p.1 p.2 d.1 d.2 = true := by
          have := List.find?_some hfind
          simpa using this
        injection h with h'
        injection h' with e1 h'
        injection h' with e2 h'
        injection h' with e3 e4
        rw [← e1, ← e2, ← e3, ← e4]
        exact hp

theorem commit_inv (st : BState) (wf hf : Nat) (ci cj : Int) (actor : String)
    (hdisj : ∀ c ∈ footprintCells ci cj wf hf, c ∉ st.occupied)
    (h : BInv st) :
    BInv ⟨(footprintCells ci cj wf hf).foldl (fun occ c => occ.insert c) st.occupied,
          st.placed ++ [⟨actor, ci, cj, wf, hf⟩]⟩ := by
  obtain ⟨hsub, hpw⟩ := h
  constructor
  · intro b hb c hc
    rcases List.mem_append.mp hb with hold | hnew
    · exact mem_foldl_insert _ _ (hsub b hold c hc)
    · have : b = ⟨actor, ci, cj, wf, hf⟩ := by simpa using hnew
      subst this
      exact subset_foldl_insert _ _ hc
  · rw [List.pairwise_append]
    refine ⟨hpw, by simp, ?_⟩
    intro b1 hb1 b2 hb2 c hc1 hc2
    have hb2' : b2 = ⟨actor, ci, cj, wf, hf⟩ := by simpa using hb2
    subst hb2'
    exact hdisj c hc2 (hsub b1 hb1 c hc1)

theorem commit_search_inv (ctx : BCtx) (st : BState) (pick : Nat)
    (r ai aj : Int) (dims_list : List (Nat × Nat)) (h : BInv st) :
    BInv (commit_search ctx st pick r ai aj dims_list) := by
  unfold commit_search
  split
  · exact h
  · rename_i wf hf ci cj heq
    have hcp := findPlacement_can_place ctx st.occupied r ai aj dims_list wf hf ci cj heq
    exact commit_inv st wf hf ci cj _
      (can_place_not_occupied ctx st.occupied ci cj wf hf hcp) h

theorem place_from_bbox_inv (ctx : BCtx) (st : BState) (cand : BCand)
    (h : BInv st) : BInv (place_from_bbox ctx st cand) := by
  unfold place_from_bbox
  split
  · exact h
  · split
    · exact h
    · split
      · exact h
      · exact commit_search_inv ctx st cand.pick _ _ _ _ h

/-- C2: in every run of the building placement stage — any terrain grid, any
candidate list, any density draws and actor picks — the footprints of the
placed building actors are pairwise disjoint: no grid cell is covered by more
than one placed building. -/
theorem c2_building_mutual_exclusion (ctx : BCtx) (cands : List BCand) :
    (buildings_stage ctx cands).placed.Pairwise
      (fun b1 b2 => ∀ c ∈ placementCells b1, c ∉ placementCells b2) := by
  have key : ∀ (cs : List BCand) (st : BState), BInv st →
      BInv (cs.foldl (place_from_bbox ctx) st) := by
    intro cs
    induction cs with
    | nil => exact fun st h => h
    | cons c cs ih =>
      intro st h
      exact ih _ (place_from_bbox_inv ctx st c h)
  exact (key cands ⟨[], []⟩ ⟨by simp, List.Pairwise.nil⟩).2

theorem commit_search_len (ctx : BCtx) (st : BState) (pick : Nat)
    (r ai aj : Int) (dims_list : List (Nat × Nat)) :
    (commit_search ctx st pick r ai aj dims_list).placed.length = st.placed.length ∨
    (commit_search ctx st pick r ai aj dims_list).placed.length = st.placed.length + 1 := by
  unfold commit_search
  split
  · exact Or.inl rfl
  · exact Or.inr (by simp)

theorem place_from_bbox_len (ctx : BCtx) (st : BState) (cand : BCand) :
    (place_from_bbox ctx st cand).placed.length = st.placed.length ∨
    (¬ ctx.max_buildings ≤ (st.placed.length : Int) ∧
     (place_from_bbox ctx st cand).placed.length = st.placed.length + 1) := by
  unfold place_from_bbox
  split
  · exact Or.inl rfl
  · rename_i hcap
    split
    · exact Or.inl rfl
    · split
      · exact Or.inl rfl
      · rcases commit_search_len ctx st cand.pick
          ((0 ⊔ ctx.building_search_radius) *
            (if (if ctx.building_placement_mode = "" then "accurate"
                 else ctx.building_placement_mode) = "aggressive" then 2 else 1))
          (0 ⊔ (ctx.width - ((1 ⊔ 2 ⊓ (1 ⊔ pyRound (listMax cand.xs - listMin cand.xs))).toNat : Int)) ⊓
            pyRound ((listMin cand.xs + listMax cand.xs) / 2 -
              ((1 ⊔ 2 ⊓ (1 ⊔ pyRound (listMax cand.xs - listMin cand.xs))).toNat : Rat) / 2))
          (0 ⊔ (ctx.height - ((1 ⊔ 2 ⊓ (1 ⊔ pyRound (listMax cand.ys - listMin cand.ys))).toNat : Int)) ⊓
            pyRound ((listMin cand.ys + listMax cand.ys) / 2 -
              ((1 ⊔ 2 ⊓ (1 ⊔ pyRound (listMax cand.ys - listMin cand.ys))).toNat : Rat) / 2))
          (dims_with_fallbacks
            (1 ⊔ 2 ⊓ (1 ⊔ pyRound (listMax cand.xs - listMin cand.xs))).toNat
            (1 ⊔ 2 ⊓ (1 ⊔ pyRound (listMax cand.ys - listMin cand.ys))).toNat
            (if ctx.building_placement_mode = "" then "accurate"
             else ctx.building_placement_mode)) with heq | heq
        · exact Or.inl heq
        · exact Or.inr ⟨hcap, heq⟩

/-! ### Vegetation placement lemmas -/

theorem cheb_comm (a b : Int × Int) : cheb a b = cheb b a := by
  unfold cheb
  have h1 : (a.1 - b.1).natAbs = (b.1 - a.1).natAbs := by omega
  have h2 : (a.2 - b.2).natAbs = (b.2 - a.2).natAbs := by omega
  rw [h1, h2]

theorem windowAny_of_close (r i j : Int) (s : List (Int × Int)) (q : Int × Int)
    (hq : q ∈ s) (hc : (cheb (i, j) q : Int) ≤ r) : windowAny r i j s = true := by
  have hmax : ((i - q.1).natAbs : Int) ≤ r ∧ ((j - q.2).natAbs : Int) ≤ r := by
    unfold cheb at hc
    rw [Nat.cast_max] at hc
    exact ⟨le_trans (le_max_left _ _) hc, le_trans (le_max_right _ _) hc⟩
  unfold windowAny
  rw [List.any_eq_true]
  refine ⟨q.1 - i, mem_rangeZ.mpr (by omega), ?_⟩
  rw [List.any_eq_true]
  refine ⟨q.2 - j, mem_rangeZ.mpr (by omega), ?_⟩
  have heq : ((i + (q.1 - i), j + (q.2 - j)) : Int × Int) = q := by
    obtain ⟨q1, q2⟩ := q
    simp only [Prod.mk.injEq]
    constructor <;> ring
  rw [heq, List.contains_eq_any_beq, List.any_eq_true]
  exact ⟨q, hq, by simp⟩

theorem veg_step_cases (ctx : VCtx) (st : VState) (c : Int × Int) :
    ((veg_step ctx st c).veg_occupied = st.veg_occupied ∧
     (veg_step ctx st c).trees = st.trees) ∨
    (∃ name, (veg_step ctx st c).veg_occupied = st.veg_occupied.insert (c.1, c.2) ∧
      (veg_step ctx st c).trees = st.trees ++ [(name, c.1, c.2)] ∧
      (0 < max 0 ctx.veg_min_spacing →
        windowAny (max 0 ctx.veg_min_spacing) c.1 c.2 st.veg_occupied = false)) := by
  simp only [veg_step]
  split
  · exact Or.inl ⟨rfl, rfl⟩
  · split
    · exact Or.inl ⟨rfl, rfl⟩
    · split
      · exact Or.inl ⟨rfl, rfl⟩
      · split
        · exact Or.inl ⟨rfl, rfl⟩
        · split
          · exact Or.inl ⟨rfl, rfl⟩
          · split
            · exact Or.inl ⟨rfl, rfl⟩
            · split
              · exact Or.inl ⟨rfl, rfl⟩
              · rename_i hsp
                refine Or.inr ⟨_, rfl, rfl, fun hpos => ?_⟩
                rcases Decidable.not_and_iff_or_not.mp hsp with h | h
                · exact absurd hpos h
                · simpa using h

theorem veg_step_inv (ctx : VCtx) (st : VState) (c : Int × Int)
    (h : VInv ctx.veg_min_spacing st) :
    VInv ctx.veg_min_spacing (veg_step ctx st c) := by
  rcases veg_step_cases ctx st c with ⟨ho, ht⟩ | ⟨name, ho, ht, hsp⟩
  · constructor
    · intro t hmem
      rw [ht] at hmem
      rw [ho]
      exact h.1 t hmem
    · rw [ht]
      exact h.2
  · constructor
    · intro t hmem
      rw [ht] at hmem
      rw [ho]
      rcases List.mem_append.mp hmem with hold | hnew
      · exact List.mem_insert_iff.mpr (Or.inr (h.1 t hold))
      · have ht' : t = (name, c.1, c.2) := by simpa using hnew
        subst ht'
        exact List.mem_insert_iff.mpr (Or.inl rfl)
    · rw [ht, List.pairwise_append]
      refine ⟨h.2, by simp, ?_⟩
      intro t1 ht1 t2 ht2
      have ht2' : t2 = (name, c.1, c.2) := by simpa using ht2
      subst ht2'
      show ctx.veg_min_spacing ≤ (cheb (t1.2.1, t1.2.2) (c.1, c.2) : Int)
      by_cases hvms : 0 < ctx.veg_min_spacing
      · have hwin := hsp (by omega)
        have hq := h.1 t1 ht1
        by_contra hlt
        push_neg at hlt
        have hclose : (cheb (c.1, c.2) (t1.2.1, t1.2.2) : Int)
            ≤ max 0 ctx.veg_min_spacing := by
          rw [cheb_comm]
          omega
        have := windowAny_of_close (max 0 ctx.veg_min_spacing) c.1 c.2
          st.veg_occupied (t1.2.1, t1.2.2) hq hclose
        rw [hwin] at this
        exact Bool.false_ne_true this
      · have hnn : (0 : Int) ≤ (cheb (t1.2.1, t1.2.2) (c.1, c.2) : Int) :=
          Int.natCast_nonneg _
        omega

theorem veg_loop_inv (ctx : VCtx) : ∀ (cells : List (Int × Int)) (st : VState),
    VInv ctx.veg_min_spacing st → VInv ctx.veg_min_spacing (veg_loop ctx cells st) := by
  intro cells
  induction cells with
  | nil => exact fun st h => h
  | cons c cs ih =>
    intro st h
    rw [veg_loop]
    split
    · exact h
    · exact ih _ (veg_step_inv ctx st c h)

/-- C3: in every run of the vegetation stage with configured minimum spacing
`s ≥ 0` — any forest cell enumeration, any random draws — every pair of placed
vegetation actors is at Chebyshev distance `≥ s`; and on the concrete example
(spacing 2, forest cells (0,0), (1,1), (5,5) in that order, density 1.0) the
actors are placed exactly at (0,0) and (5,5), with (1,1) suppressed. -/
theorem c3_vegetation_spacing :
    (∀ (ctx : VCtx) (rngQ : List Rat) (rngPick : List Nat),
      0 ≤ ctx.veg_min_spacing →
      (veg_stage ctx rngQ rngPick).trees.Pairwise
        (fun t1 t2 =>
          ctx.veg_min_spacing ≤ (cheb (t1.2.1, t1.2.2) (t2.2.1, t2.2.2) : Int))) ∧
    ((veg_stage c3ctx (List.replicate 3 0) (List.replicate 3 0)).trees.map
        (fun t => t.2) = [((0 : Int), (0 : Int)), (5, 5)]) := by
  constructor
  · intro ctx rngQ rngPick _
    exact (veg_loop_inv ctx ctx.forest_cells ⟨[], [], rngQ, rngPick⟩
      ⟨by simp, List.Pairwise.nil⟩).2
  · with_unfolding_all decide

/-- C3 witness: the universal spacing statement applied to the concrete
context of the example. -/
theorem c3_vegetation_spacing_witness :
    (0 : Int) ≤ c3ctx.veg_min_spacing ∧
    (veg_stage c3ctx [0] [0]).trees.Pairwise
      (fun t1 t2 =>
        c3ctx.veg_min_spacing ≤ (cheb (t1.2.1, t1.2.2) (t2.2.1, t2.2.2) : Int)) :=
  ⟨by decide, c3_vegetation_spacing.1 c3ctx [0] [0] (by decide)⟩

/-! ### Cap lemmas -/

theorem veg_loop_cap (ctx : VCtx) :
    ∀ (cells : List (Int × Int)) (st : VState),
    (st.trees.length : Int) ≤ ctx.max_veg_actors →
    ((veg_loop ctx cells st).trees.length : Int) ≤ ctx.max_veg_actors := by
  intro cells
  induction cells with
  | nil => exact fun st h => h
  | cons c cs ih =>
    intro st h
    rw [veg_loop]
    split
    · exact h
    · rename_i hcap
      apply ih
      rcases veg_step_cases ctx st c with ⟨_, ht⟩ | ⟨name, _, ht, _⟩
      · rw [ht]
        omega
      · rw [ht]
        simp only [List.length_append, List.length_cons, List.length_nil]
        omega

/-- C4: the number of placed building actors never exceeds `max_buildings`,
the number of placed vegetation actors never exceeds `max_veg_actors`
(both caps `≥ 0`), and once a cap is reached the corresponding stage places
nothing further. -/
theorem c4_placement_caps (ctx : BCtx) (vctx : VCtx) (cands : List BCand)
    (rngQ : List Rat) (rngPick : List Nat)
    (hb : 0 ≤ ctx.max_buildings) (hv : 0 ≤ vctx.max_veg_actors) :
    ((buildings_stage ctx cands).placed.length : Int) ≤ ctx.max_buildings ∧
    ((veg_stage vctx rngQ rngPick).trees.length : Int) ≤ vctx.max_veg_actors ∧
    (∀ (st : BState) (cand : BCand),
      ctx.max_buildings ≤ (st.placed.length : Int) →
      place_from_bbox ctx st cand = st) ∧
    (∀ (st : VState) (cells : List (Int × Int)),
      vctx.max_veg_actors ≤ (st.trees.length : Int) →
      veg_loop vctx cells st = st) := by
  refine ⟨?_, ?_, ?_, ?_⟩
  · have key : ∀ (cs : List BCand) (st : BState),
        (st.placed.length : Int) ≤ ctx.max_buildings →
        ((cs.foldl (place_from_bbox ctx) st).placed.length : Int)
          ≤ ctx.max_buildings := by
      intro cs
      induction cs with
      | nil => exact fun st h => h
      | cons c cs ih =>
        intro st h
        rcases place_from_bbox_len ctx st c with he | ⟨hc, he⟩ <;>
          · apply ih
            rw [he]
            push_cast
            omega
    exact key cands ⟨[], []⟩ (by simpa using hb)
  · exact veg_loop_cap vctx vctx.forest_cells ⟨[], [], rngQ, rngPick⟩
      (by simpa using hv)
  · intro st cand hcap
    unfold place_from_bbox
    rw [if_pos hcap]
  · intro st cells hcap
    cases cells with
    | nil => rfl
    | cons c cs =>
      rw [veg_loop, if_pos hcap]

/-- C4 witness: concrete contexts with caps 0 and 10. -/
theorem c4_placement_caps_witness :
    ((0 : Int) ≤ 0 ∧ (0 : Int) ≤ c3ctx.max_veg_actors) ∧
    (((buildings_stage ⟨[[255]], 1, 1, 1, 0, 1, "accurate"⟩ []).placed.length : Int) ≤ 0 ∧
     ((veg_stage c3ctx [0] [0]).trees.length : Int) ≤ c3ctx.max_veg_actors ∧
     (∀ (st : BState) (cand : BCand),
       (0 : Int) ≤ (st.placed.length : Int) →
       place_from_bbox ⟨[[255]], 1, 1, 1, 0, 1, "accurate"⟩ st cand = st) ∧
     (∀ (st : VState) (cells : List (Int × Int)),
       c3ctx.max_veg_actors ≤ (st.trees.length : Int) →
       veg_loop c3ctx cells st = st)) :=
  ⟨⟨by decide, by decide⟩,
   c4_placement_caps ⟨[[255]], 1, 1, 1, 0, 1, "accurate"⟩ c3ctx [] [0] [0]
     (by decide) (by decide)⟩


/-! ### River smoothing (C5) -/

/-- C5 (amended): a collected sample is stamped if and only if its cell still
holds the water template and the local 9×9 water fraction is at most the skip
threshold 0.45 (the code skips only when the fraction exceeds it); a vertical
sample stamps the 3×2 vertical river template 117 anchored at `(i-1, j)`, and
a horizontal sample stamps template 121 when `(i+j)` is even and 122 when it
is odd.  `river_pass` folds this step over the samples. -/
theorem c5_river_stamp_rule (tt tv : Grid) (cnt : Nat) (ii jj : Int)
    (orient : Nat) :
    (¬(cellGet tt ii jj = WATER_TEMPLATE_ID ∧
        local_water_fraction tt ii jj 4 ≤ RIVER_STAMP_SKIP_WATER_FRAC) →
      river_step (tt, tv, cnt) (ii, jj, orient) = (tt, tv, cnt)) ∧
    ((cellGet tt ii jj = WATER_TEMPLATE_ID ∧
        local_water_fraction tt ii jj 4 ≤ RIVER_STAMP_SKIP_WATER_FRAC) →
      (orient = 0 →
        river_step (tt, tv, cnt) (ii, jj, orient) =
          (let r := stamp_template tt tv (ii - 1) jj RIVER_TEMPLATE_VERT_CENTER
           (r.1, r.2.1, cnt + r.2.2))) ∧
      (orient ≠ 0 →
        river_step (tt, tv, cnt) (ii, jj, orient) =
          (let r := stamp_template tt tv ii jj
             (if (ii + jj) % 2 = 0 then RIVER_TEMPLATE_HORIZ_TOP
              else RIVER_TEMPLATE_HORIZ_TOP_ALT)
           (r.1, r.2.1, cnt + r.2.2)))) := by
  constructor
  · intro h
    unfold river_step
    by_cases hw : cellGet tt ii jj = WATER_TEMPLATE_ID
    · have hf : RIVER_STAMP_SKIP_WATER_FRAC < local_water_fraction tt ii jj 4 := by
        by_contra hnot
        push_neg at hnot
        exact h ⟨hw, hnot⟩
      rw [if_neg (not_not_intro hw), if_pos hf]
    · rw [if_pos hw]
  · intro ⟨hw, hf⟩
    constructor
    · intro ho
      unfold river_step
      rw [if_neg (not_not_intro hw), if_neg (not_lt.mpr hf), if_pos ho]
    · intro ho
      unfold river_step
      rw [if_neg (not_not_intro hw), if_neg (not_lt.mpr hf), if_neg ho]

/-- C5 witness: a cell in all-open water (fraction 1) is not stamped. -/
theorem c5_river_stamp_rule_witness :
    ¬(cellGet [[1]] 0 0 = WATER_TEMPLATE_ID ∧
        local_water_fraction [[1]] 0 0 4 ≤ RIVER_STAMP_SKIP_WATER_FRAC) ∧
    river_step ([[1]], [[0]], 0) (0, 0, 0) = ([[1]], [[0]], 0) :=
  ⟨by with_unfolding_all decide,
   (c5_river_stamp_rule [[1]] [[0]] 0 0 0 0).1 (by with_unfolding_all decide)⟩

/-- C5 counterexample: at a sample whose clipped window water fraction is
exactly 0.45 — not *below* the threshold — the code still stamps: the claim's
"stamped iff the fraction is below 0.45" fails on the boundary. -/
theorem c5_counterexample_boundary_fraction :
    local_water_fraction c5grid 0 4 4 = RIVER_STAMP_SKIP_WATER_FRAC ∧
    ¬(local_water_fraction c5grid 0 4 4 < RIVER_STAMP_SKIP_WATER_FRAC) ∧
    cellGet c5grid 0 4 = WATER_TEMPLATE_ID ∧
    (river_pass c5grid (List.replicate 5 (List.replicate 8 0)) [(0, 4, 1)]).1
      ≠ c5grid := by
  with_unfolding_all decide

/-! ### CoordinateMapper (C7) -/

/-- C7: `toCell` returns None exactly when the projected zone number or
letter differs from the AOI's, and otherwise returns
`((easting - minE)/mpc, (maxN - northing)/mpc)`. -/
theorem c7_toCell_zone_rule (proj : Rat → Rat → Rat × Rat × Int × Char)
    (czn : Int) (czl : Char) (min_e max_n mpc lat lon : Rat) :
    (latlon_to_cell proj czn czl min_e max_n mpc lat lon = none ↔
      ((proj lat lon).2.2.1 ≠ czn ∨ (proj lat lon).2.2.2 ≠ czl)) ∧
    (∀ p, latlon_to_cell proj czn czl min_e max_n mpc lat lon = some p →
      p = (((proj lat lon).1 - min_e) / mpc,
           (max_n - (proj lat lon).2.1) / mpc)) := by
  unfold latlon_to_cell
  by_cases hz : (proj lat lon).2.2.1 ≠ czn ∨ (proj lat lon).2.2.2 ≠ czl
  · rw [if_pos hz]
    exact ⟨⟨fun _ => hz, fun _ => rfl⟩, fun p hp => absurd hp (by simp)⟩
  · rw [if_neg hz]
    refine ⟨⟨fun h => absurd h (by simp), fun h => absurd h hz⟩, ?_⟩
    intro p hp
    simpa using hp.symm

/-- C7 witness: the rule applied to the degenerate projection, in the
matching-zone case and in a mismatching-zone case. -/
theorem c7_toCell_zone_rule_witness :
    latlon_to_cell c6proj 1 'N' 0 10 1 10 0 = some (0, 0) ∧
    latlon_to_cell c6proj 2 'N' 0 10 1 10 0 = none := by
  constructor
  · have h := (c7_toCell_zone_rule c6proj 1 'N' 0 10 1 10 0).1
    cases hv : latlon_to_cell c6proj 1 'N' 0 10 1 10 0 with
    | none =>
      have := h.mp hv
      exact absurd this (by decide)
    | some p =>
      have := (c7_toCell_zone_rule c6proj 1 'N' 0 10 1 10 0).2 p hv
      rw [this]
      with_unfolding_all decide
  · exact (c7_toCell_zone_rule c6proj 2 'N' 0 10 1 10 0).1.mpr (by decide)

/-! ### FeatureClassifier (C6) -/

theorem classify_ring_snd (tt : Grid) (ring : List (Rat × Rat))
    (s : List (Int × Int) × List (Int × Int)) :
    (classify_ring tt ring true s).2 = s.2 := by
  simp only [classify_ring]
  generalize (windowPairs _ _ _ _) = ps
  induction ps generalizing s with
  | nil => rfl
  | cons p ps ih =>
    rw [List.foldl_cons]
    refine (ih _).trans ?_
    split <;> rfl

/-- C6 (amended): the per-feature `elif` gives forest precedence only within
a single feature — a way whose tags satisfy the forest test contributes
nothing to the built-up set, even if it also carries a built-up tag; but
distinct overlapping forest and built-up features can put the same cell in
both sets, so the two sets are not disjoint in general. -/
theorem c6_forest_precedence_per_feature
    (proj : Rat → Rat → Rat × Rat × Int × Char) (czn : Int) (czl : Char)
    (min_e max_n mpc : Rat) (nodes_by_id : Int → Option (Rat × Rat))
    (tiles_type : Grid) (id : Int) (nodeIds : List Int)
    (tags : List (String × String)) (hf : is_forest_tags tags = true) :
    (classify_cells proj czn czl min_e max_n mpc nodes_by_id tiles_type
      [OsmElement.way id nodeIds tags]).2 = [] := by
  unfold classify_cells
  simp only [List.foldl_cons, List.foldl_nil, hf, Bool.true_or, if_true]
  split
  · exact classify_ring_snd _ _ _
  · rfl

/-- C6 witness: a single way tagged both forest and built-up contributes
nothing to the built-up set. -/
theorem c6_forest_precedence_per_feature_witness :
    is_forest_tags [("natural", "wood"), ("landuse", "residential")] = true ∧
    (classify_cells c6proj 1 'N' 0 10 1 c6nodes c6grid
      [OsmElement.way 1 [1, 2, 3, 4]
        [("natural", "wood"), ("landuse", "residential")]]).2 = [] :=
  ⟨by decide,
   c6_forest_precedence_per_feature c6proj 1 'N' 0 10 1 c6nodes c6grid 1
     [1, 2, 3, 4] [("natural", "wood"), ("landuse", "residential")] (by decide)⟩

/-- C6 counterexample: a forest-tagged polygon and a distinct built-up-tagged
polygon that overlap put cell (0,0) into both sets — the classifier's two
sets are not disjoint, refuting the claim. -/
theorem c6_counterexample_overlapping_features :
    (0, 0) ∈ (classify_cells c6proj 1 'N' 0 10 1 c6nodes c6grid c6elements).1 ∧
    (0, 0) ∈ (classify_cells c6proj 1 'N' 0 10 1 c6nodes c6grid c6elements).2 := by
  with_unfolding_all decide

end Geogen
